import Mathlib

/-!
# Hoverfly import pipeline: a shallow embedding

Embedding of `core/import.go` (`isURL`, `isJSON`,
`ImportRequestResponsePairViews`) and of the payload conversions exercised by
`core/models/payload_test.go`.

Conventions.
* A Go `string` is a sequence of bytes: `GoString := List (Fin 256)`.
* A Go `map[string][]string` is a reference. In the import loop a map value is
  a `MapRef` (nil, or the address of a map) and the maps themselves lie in a
  `Heap`; records that hold the same address share one map, and the assignment
  of line 181 or 184 is a write to the heap. `GoMap` is a map as a reader finds
  it: `none` for nil, `some l` for the association list of a non-nil map.
* A Go `*string` is `Option GoString` (`none` is the nil pointer); nothing in
  the import writes through such a pointer.
* The calls made to `SaveRequestResponsePair`, `Hooks.Fire` and the logger are
  recorded in the state, in the order they are made; a pair is recorded as
  the callee reads it at the call. Hooks and store act on the outside world,
  not on the header maps of the batch.
* Library and collaborator code outside the repository sources is either a
  parameter (`http.DetectContentType`, `strconv.ParseFloat`, `pair.Encode`,
  hooks, store, clock, `url.Parse` in `isURL`) or a model written after the Go
  standard library (`encoding/base64`, the scanner of `encoding/json`, regular
  expression matching, `net/url`).
-/

namespace HoverflyCore

/-! ## Go strings -/

abbrev Byte := Fin 256

abbrev GoString := List Byte

/-- UTF-8 encoding of one code point, as the Go compiler stores string literals. -/
def utf8Bytes (c : Char) : List Byte :=
  let n := c.toNat
  if n < 0x80 then [Fin.ofNat n]
  else if n < 0x800 then [Fin.ofNat (0xC0 + n / 64), Fin.ofNat (0x80 + n % 64)]
  else if n < 0x10000 then
    [Fin.ofNat (0xE0 + n / 4096), Fin.ofNat (0x80 + n / 64 % 64), Fin.ofNat (0x80 + n % 64)]
  else
    [Fin.ofNat (0xF0 + n / 262144), Fin.ofNat (0x80 + n / 4096 % 64),
     Fin.ofNat (0x80 + n / 64 % 64), Fin.ofNat (0x80 + n % 64)]

/-- A Go string literal. -/
def gs (s : String) : GoString := s.toList.flatMap utf8Bytes

/-- Go `strings.HasPrefix`. -/
def hasPrefix : GoString → GoString → Bool
  | _, [] => true
  | [], _ :: _ => false
  | a :: s, b :: p => a == b && hasPrefix s p

/-- Go `strings.Contains`. -/
def containsStr : GoString → GoString → Bool
  | [], sub => sub.isEmpty
  | a :: s, sub => hasPrefix (a :: s) sub || containsStr s sub

/-! ## Go maps of header values -/

/-- Go `map[string][]string`; `none` is the nil map. -/
abbrev GoMap := Option (List (GoString × List GoString))

/-- Go `len(m)`. -/
def GoMap.len : GoMap → Nat
  | none => 0
  | some l => l.length

/-- Go `_, present := m[k]`. -/
def GoMap.present : GoMap → GoString → Bool
  | none, _ => false
  | some l, k => l.any (fun e => e.1 == k)

/-- Go `m[k]`; the zero value (nil slice) when the key is absent. -/
def GoMap.get : GoMap → GoString → List GoString
  | none, _ => []
  | some l, k => match l.find? (fun e => e.1 == k) with
    | some e => e.2
    | none => []

/-- Replace the value of the first entry for `k`, or add the entry. -/
def assocSet (k : GoString) (v : List GoString) :
    List (GoString × List GoString) → List (GoString × List GoString)
  | [] => [(k, v)]
  | e :: l => if e.1 == k then (k, v) :: l else e :: assocSet k v l

/-- Go `m[k] = v` on a non-nil map (assignment to a nil map panics; the import
loop only assigns after `make`). -/
def GoMap.set (m : GoMap) (k : GoString) (v : List GoString) : GoMap :=
  match m with
  | none => none
  | some l => some (assocSet k v l)

/-- Go `make(map[string][]string)`. -/
def GoMap.make : GoMap := some []

/-- The entries of a map. -/
abbrev MapContent := List (GoString × List GoString)

/-- A Go map value: nil, or the address of a map in memory. -/
abbrev MapRef := Option Nat

/-- The maps in memory, by address. -/
abbrev Heap := Nat → MapContent

/-- The map a reader finds behind a map value. -/
def Heap.read (h : Heap) : MapRef → GoMap
  | none => none
  | some a => some (h a)

/-- The memory after the map at address `a` has been given the entries `m`. -/
def Heap.write (h : Heap) (a : Nat) (m : MapContent) : Heap :=
  fun b => if b = a then m else h b

/-! ## Standard base64 (`encoding/base64`, `StdEncoding`) -/

/-- The character of the standard alphabet for a 6-bit value. -/
def b64char (n : Nat) : Byte :=
  if n < 26 then Fin.ofNat (65 + n)
  else if n < 52 then Fin.ofNat (71 + n)
  else if n < 62 then Fin.ofNat (n - 4)
  else if n = 62 then 43
  else 47

/-- The 6-bit value of a character of the standard alphabet. -/
def b64val (c : Byte) : Option Nat :=
  let v := c.val
  if 65 ≤ v ∧ v ≤ 90 then some (v - 65)
  else if 97 ≤ v ∧ v ≤ 122 then some (v - 71)
  else if 48 ≤ v ∧ v ≤ 57 then some (v + 4)
  else if v = 43 then some 62
  else if v = 47 then some 63
  else none

/-- Go `base64.StdEncoding.EncodeToString`. -/
def base64Encode : GoString → GoString
  | [] => []
  | [a] => [b64char (a.val / 4), b64char (a.val % 4 * 16), 61, 61]
  | [a, b] =>
      [b64char (a.val / 4), b64char (a.val % 4 * 16 + b.val / 16),
       b64char (b.val % 16 * 4), 61]
  | a :: b :: c :: rest =>
      b64char (a.val / 4) :: b64char (a.val % 4 * 16 + b.val / 16) ::
      b64char (b.val % 16 * 4 + c.val / 64) :: b64char (c.val % 64) ::
      base64Encode rest

/-- Decoding of the 4-character quanta of a padded base64 text. Padding is
accepted only in the last quantum. -/
def decodeQuanta : GoString → Option GoString
  | [] => some []
  | a :: b :: c :: d :: rest =>
      if rest.isEmpty && d == 61 then
        if c == 61 then
          match b64val a, b64val b with
          | some s0, some s1 => some [Fin.ofNat (s0 * 4 + s1 / 16)]
          | _, _ => none
        else
          match b64val a, b64val b, b64val c with
          | some s0, some s1, some s2 =>
              some [Fin.ofNat (s0 * 4 + s1 / 16), Fin.ofNat (s1 % 16 * 16 + s2 / 4)]
          | _, _, _ => none
      else
        match b64val a, b64val b, b64val c, b64val d, decodeQuanta rest with
        | some s0, some s1, some s2, some s3, some out =>
            some (Fin.ofNat (s0 * 4 + s1 / 16) :: Fin.ofNat (s1 % 16 * 16 + s2 / 4) ::
                  Fin.ofNat (s2 % 4 * 64 + s3) :: out)
        | _, _, _, _, _ => none
  | _ => none

/-- Go `base64.StdEncoding.DecodeString`: carriage returns and line feeds are
skipped, everything else must be padded standard base64. `none` is the
`CorruptInputError` result. -/
def base64Decode (s : GoString) : Option GoString :=
  decodeQuanta (s.filter (fun c => !(c == 10 || c == 13)))

/-! ## Payload model (`core/models`, `core/views`) -/

/-- Go `models.ResponseDetails`. -/
structure ResponseDetails where
  Status : Int
  Body : GoString
  Headers : GoMap
  deriving DecidableEq, Repr

/-- Go `views.ResponseDetailsView`. -/
structure ResponseDetailsView where
  Status : Int
  Body : GoString
  EncodedBody : Bool
  Headers : GoMap
  deriving DecidableEq, Repr

/-- Modelled from the spec: `ResponseDetails.ConvertToResponseDetailsView`
(`core/models/payload.go` is not among the sources; only its tests are). The
spec's `ToViewResponse`: "(1) if a Content-Encoding header value equals "gzip"
or "deflate", treat as binary-encoded regardless of printability; (2) else
attempt byte-level binary detection; if binary, encode; else leave as literal
text. EncodedBody set accordingly." The binary detector is the parameter
`isBinary`. -/
def ConvertToResponseDetailsView (isBinary : GoString → Bool) (r : ResponseDetails) :
    ResponseDetailsView :=
  let needsEncoding :=
    if (r.Headers.get (gs "Content-Encoding")).any
        (fun v => v == gs "gzip" || v == gs "deflate") then true
    else if isBinary r.Body then true
    else false
  let body := if needsEncoding then base64Encode r.Body else r.Body
  { Status := r.Status, Body := body, Headers := r.Headers, EncodedBody := needsEncoding }

/-- Modelled from the spec: `NewResponseDetailsFromResponseDetailsView`
(`core/models/payload.go` is not among the sources). The spec's
`ToDomainResponse`: "if EncodedBody is true, base64-decodes Body to recover raw
bytes; otherwise Body is used verbatim. Fails with DecodeError on invalid
base64." -/
def NewResponseDetailsFromResponseDetailsView (data : ResponseDetailsView) :
    Except String ResponseDetails :=
  if data.EncodedBody then
    match base64Decode data.Body with
    | some raw => .ok { Status := data.Status, Body := raw, Headers := data.Headers }
    | none => .error "DecodeError"
  else
    .ok { Status := data.Status, Body := data.Body, Headers := data.Headers }

/-! ## Wire and domain types in memory (`core/views`, `core/models`, `core/matching`) -/

/-- Go `views.ResponseDetailsView` as it lies in memory: the header map is a
reference. -/
structure ResponseDetailsViewRef where
  Status : Int
  Body : GoString
  EncodedBody : Bool
  Headers : MapRef
  deriving DecidableEq, Repr

/-- Go `models.ResponseDetails` as it lies in memory. -/
structure ResponseDetailsRef where
  Status : Int
  Body : GoString
  Headers : MapRef
  deriving DecidableEq, Repr

/-- Go `views.RequestDetailsView`: every attribute is a nullable pointer, the
header map a reference. -/
structure RequestDetailsView where
  RequestType : Option GoString
  Path : Option GoString
  Method : Option GoString
  Destination : Option GoString
  Scheme : Option GoString
  Query : Option GoString
  Body : Option GoString
  Headers : MapRef
  deriving DecidableEq, Repr

/-- Go `views.RequestResponsePairView`. -/
structure RequestResponsePairView where
  Response : ResponseDetailsViewRef
  Request : RequestDetailsView
  deriving DecidableEq, Repr

/-- Go `models.RequestDetails` as it lies in memory. -/
structure RequestDetailsRef where
  Path : GoString
  Method : GoString
  Destination : GoString
  Scheme : GoString
  Query : GoString
  Body : GoString
  Headers : MapRef
  deriving DecidableEq, Repr

/-- Go `models.RequestResponsePair` as it lies in memory. -/
structure RequestResponsePairRef where
  Response : ResponseDetailsRef
  Request : RequestDetailsRef
  deriving DecidableEq, Repr

/-- Go `models.RequestDetails` as a reader finds it. -/
structure RequestDetails where
  Path : GoString
  Method : GoString
  Destination : GoString
  Scheme : GoString
  Query : GoString
  Body : GoString
  Headers : GoMap
  deriving DecidableEq, Repr

/-- Go `models.RequestResponsePair` as a reader finds it. -/
structure RequestResponsePair where
  Response : ResponseDetails
  Request : RequestDetails
  deriving DecidableEq, Repr

/-- Go `matching.RequestTemplate`. -/
structure RequestTemplate where
  Path : Option GoString
  Method : Option GoString
  Destination : Option GoString
  Scheme : Option GoString
  Query : Option GoString
  Body : Option GoString
  Headers : MapRef
  deriving DecidableEq, Repr

/-- Go `matching.RequestTemplateResponsePair`. -/
structure RequestTemplateResponsePair where
  RequestTemplate : RequestTemplate
  Response : ResponseDetailsRef
  deriving DecidableEq, Repr

/-- The response view a reader finds in the memory `h`. -/
def ResponseDetailsViewRef.read (h : Heap) (v : ResponseDetailsViewRef) : ResponseDetailsView :=
  { Status := v.Status, Body := v.Body, EncodedBody := v.EncodedBody,
    Headers := Heap.read h v.Headers }

/-- The response a reader finds in the memory `h`. -/
def ResponseDetailsRef.read (h : Heap) (r : ResponseDetailsRef) : ResponseDetails :=
  { Status := r.Status, Body := r.Body, Headers := Heap.read h r.Headers }

/-- Go `util.PointerToString`: the empty string for a nil pointer. -/
def PointerToString : Option GoString → GoString
  | none => []
  | some s => s

/-- Modelled from the spec: `NewRequestDetailsFromRequestDetailsView`
(`core/models/payload.go` is not among the sources). Every field of the view is
copied (`TestRequestDetailsView_ConvertToRequestDetails`); a nil pointer gives
the empty string, and the header map is taken as it is: the result refers to
the map of the view. -/
def NewRequestDetailsFromRequestDetailsView (data : RequestDetailsView) : RequestDetailsRef :=
  { Path := PointerToString data.Path
    Method := PointerToString data.Method
    Destination := PointerToString data.Destination
    Scheme := PointerToString data.Scheme
    Query := PointerToString data.Query
    Body := PointerToString data.Body
    Headers := data.Headers }

/-- The hook event `Entry` built by the import loop. -/
structure Entry where
  ActionType : GoString
  Message : GoString
  Time : Nat
  Data : GoString
  deriving DecidableEq, Repr

/-- Lines written through the logger by `ImportRequestResponsePairViews`. -/
inductive LogEvent
  | encodeFailed (error : GoString)
  | hookFailed (error message actionType : GoString)
  | saveFailed (error : GoString)
  | imported (total successful failed : Nat)
  deriving DecidableEq, Repr

/-- The collaborators of the import loop whose code is outside `core/import.go`.
`W` is the state of the outside world they act on (persistent pair store, hook
consumers, clock). -/
structure Collaborators (W : Type) where
  /-- What the single-valued call `models.NewResponseDetailsFromResponseDetailsView`
  yields when the body is flagged as encoded but is not valid base64. -/
  onDecodeError : ResponseDetailsViewRef → ResponseDetailsRef
  /-- Whether `strconv.ParseFloat(s, 64)` accepts the JSON number literal `s`. -/
  parseFloatOk : GoString → Bool
  /-- Go `http.DetectContentType`. -/
  detectContentType : GoString → GoString
  /-- Go `pair.Encode()`, of the pair as it reads at the call. -/
  encode : RequestResponsePair → Except GoString GoString
  /-- The constant `ActionTypeRequestCaptured`. -/
  actionTypeRequestCaptured : GoString
  /-- Go `time.Now()`. -/
  now : W → Nat
  /-- What `hf.Hooks.Fire` does to the outside world. -/
  fireEffect : W → Entry → W
  /-- The error returned by `hf.Hooks.Fire` (`none` is nil). -/
  fireResult : W → Entry → Option GoString
  /-- Go `hf.RequestMatcher.SaveRequestResponsePair`, of the pair as it reads at
  the call: new world and returned error. -/
  save : W → RequestResponsePair → W × Option GoString

/-- Modelled from the spec: `NewResponseDetailsFromResponseDetailsView` on the
in-memory form, as the import loop calls it (one result, no error). The body is
decoded as in the spec's `ToDomainResponse` ("if EncodedBody is true,
base64-decodes Body to recover raw bytes; otherwise Body is used verbatim"),
the header map is passed on by reference, and `onDecodeError` stands for the
result on a corrupt body. -/
def responseDetailsOf {W : Type} (c : Collaborators W) (data : ResponseDetailsViewRef) :
    ResponseDetailsRef :=
  if data.EncodedBody then
    match base64Decode data.Body with
    | some raw => { Status := data.Status, Body := raw, Headers := data.Headers }
    | none => c.onDecodeError data
  else
    { Status := data.Status, Body := data.Body, Headers := data.Headers }

/-- Modelled from the spec: `NewRequestResponsePairFromRequestResponsePairView`
(`core/models/payload.go` is not among the sources): request and response are
converted field by field. -/
def NewRequestResponsePairFromRequestResponsePairView {W : Type} (c : Collaborators W)
    (pairView : RequestResponsePairView) : RequestResponsePairRef :=
  { Response := responseDetailsOf c pairView.Response
    Request := NewRequestDetailsFromRequestDetailsView pairView.Request }

/-- The `Hoverfly` instance as far as the import touches it, with the memory
`maps` that holds the header maps. `saveCalls` and `hookCalls` record the
arguments of the calls made to `SaveRequestResponsePair` and `Hooks.Fire`,
`log` the logger output. -/
structure Hoverfly (W : Type) where
  TemplateStore : List RequestTemplateResponsePair
  maps : Heap
  world : W
  saveCalls : List RequestResponsePair
  hookCalls : List Entry
  log : List LogEvent

/-- The variables live across iterations of the loop. -/
structure ImportLoop (W : Type) where
  hf : Hoverfly W
  success : Nat
  failed : Nat

/-! ## `encoding/json`: the scanner behind `json.Unmarshal` -/

/-- The scanner's `isSpace`. -/
def isSpace (c : Byte) : Bool := c == 32 || c == 9 || c == 13 || c == 10

/-- Drop leading JSON white space. -/
def skipSpace : GoString → GoString
  | [] => []
  | c :: s => if isSpace c then skipSpace s else c :: s

def isDigit (c : Byte) : Bool := decide (48 ≤ c.val) && decide (c.val ≤ 57)

def isHex (c : Byte) : Bool :=
  isDigit c || (decide (97 ≤ c.val) && decide (c.val ≤ 102)) ||
    (decide (65 ≤ c.val) && decide (c.val ≤ 70))

/-- The characters allowed after a backslash, `u` apart: `b f n r t \ / "`. -/
def isSimpleEscape (c : Byte) : Bool :=
  c == 98 || c == 102 || c == 110 || c == 114 || c == 116 || c == 92 || c == 47 || c == 34

/-- Scanner states `stateInString`, `stateInStringEsc`, `stateInStringEscU…`:
the text after an opening quote, up to and including the closing quote. The
result is what follows the string. -/
def scanString : GoString → Option GoString
  | [] => none
  | c :: r =>
    if c == 34 then some r
    else if c == 92 then
      match r with
      | e :: r1 =>
        if isSimpleEscape e then scanString r1
        else if e == 117 then
          match r1 with
          | h1 :: h2 :: h3 :: h4 :: r2 =>
            if isHex h1 && isHex h2 && isHex h3 && isHex h4 then scanString r2 else none
          | _ => none
        else none
      | [] => none
    else if c.val < 32 then none
    else scanString r

/-- The longest prefix of digits and what follows it. -/
def spanDigits : GoString → GoString × GoString
  | [] => ([], [])
  | c :: r =>
    if isDigit c then ((spanDigits r).1.cons c, (spanDigits r).2) else ([], c :: r)

/-- Scanner states `state0`, `state1`: the integer part. -/
def scanInt : GoString → Option (GoString × GoString)
  | [] => none
  | c :: r =>
    if c == 48 then some ([c], r)
    else if isDigit c then some (c :: (spanDigits r).1, (spanDigits r).2)
    else none

/-- Scanner states `stateDot`, `stateDot0`: an optional fraction. -/
def scanFrac : GoString → Option (GoString × GoString)
  | [] => some ([], [])
  | c :: r =>
    if c == 46 then
      match r with
      | d :: r1 =>
        if isDigit d then some (c :: d :: (spanDigits r1).1, (spanDigits r1).2) else none
      | [] => none
    else some ([], c :: r)

/-- Scanner states `stateE`, `stateESign`, `stateE0`: an optional exponent. -/
def scanExp : GoString → Option (GoString × GoString)
  | [] => some ([], [])
  | c :: r =>
    if c == 101 || c == 69 then
      match r with
      | d :: r1 =>
        if d == 43 || d == 45 then
          match r1 with
          | e :: r2 =>
            if isDigit e then some (c :: d :: e :: (spanDigits r2).1, (spanDigits r2).2)
            else none
          | [] => none
        else if isDigit d then some (c :: d :: (spanDigits r1).1, (spanDigits r1).2)
        else none
      | [] => none
    else some ([], c :: r)

/-- A number literal (`stateNeg` onwards): the literal and what follows it. -/
def scanNumber (s : GoString) : Option (GoString × GoString) :=
  let signed : GoString × GoString :=
    match s with
    | c :: r => if c == 45 then ([c], r) else ([], s)
    | [] => ([], [])
  match scanInt signed.2 with
  | none => none
  | some (i, r1) =>
    match scanFrac r1 with
    | none => none
    | some (f, r2) =>
      match scanExp r2 with
      | none => none
      | some (e, r3) => some (signed.1 ++ i ++ f ++ e, r3)

/-- An object key and its colon (`stateBeginString`, then `stateEndValue` in
`parseObjectKey`); the result is what follows the colon. -/
def scanKey (s : GoString) : Option GoString :=
  match skipSpace s with
  | [] => none
  | c :: r =>
    if c == 34 then
      match scanString r with
      | none => none
      | some r1 =>
        match skipSpace r1 with
        | [] => none
        | d :: r2 => if d == 58 then some r2 else none
    else none

/-- Where the scanner stands between tokens. -/
inductive ScanState
  | beginValue
  | endArrayValue
  | endObjectValue
  deriving DecidableEq, Repr

/-- One JSON value (`stateBeginValue`), or the rest of an array or object after
one of its values (`stateEndValue`). `numOk` is asked about every number
literal. The result is the text that follows; `none` is a syntax error, a
rejected number, or exhausted fuel. -/
def scan (numOk : GoString → Bool) : Nat → ScanState → GoString → Option GoString
  | 0, _, _ => none
  | fuel + 1, .beginValue, s =>
    match skipSpace s with
    | [] => none
    | c :: r =>
      if c == 123 then
        match skipSpace r with
        | [] => none
        | d :: r1 =>
          if d == 125 then some r1
          else
            match scanKey (d :: r1) with
            | none => none
            | some r2 =>
              match scan numOk fuel .beginValue r2 with
              | none => none
              | some r3 => scan numOk fuel .endObjectValue r3
      else if c == 91 then
        match skipSpace r with
        | [] => none
        | d :: r1 =>
          if d == 93 then some r1
          else
            match scan numOk fuel .beginValue (d :: r1) with
            | none => none
            | some r2 => scan numOk fuel .endArrayValue r2
      else if c == 34 then scanString r
      else if c == 45 || isDigit c then
        match scanNumber (c :: r) with
        | none => none
        | some (lit, r1) => if numOk lit then some r1 else none
      else if hasPrefix (c :: r) (gs "true") then some (r.drop 3)
      else if hasPrefix (c :: r) (gs "false") then some (r.drop 4)
      else if hasPrefix (c :: r) (gs "null") then some (r.drop 3)
      else none
  | fuel + 1, .endArrayValue, s =>
    match skipSpace s with
    | [] => none
    | c :: r =>
      if c == 44 then
        match scan numOk fuel .beginValue r with
        | none => none
        | some r1 => scan numOk fuel .endArrayValue r1
      else if c == 93 then some r
      else none
  | fuel + 1, .endObjectValue, s =>
    match skipSpace s with
    | [] => none
    | c :: r =>
      if c == 44 then
        match scanKey r with
        | none => none
        | some r1 =>
          match scan numOk fuel .beginValue r1 with
          | none => none
          | some r2 => scan numOk fuel .endObjectValue r2
      else if c == 125 then some r
      else none

/-- A whole document: one value, then only white space. Every nested call of
`scan` works on a strictly shorter text, so `data.length + 1` is fuel enough. -/
def scanDocument (numOk : GoString → Bool) (data : GoString) : Bool :=
  match scan numOk (data.length + 1) .beginValue data with
  | none => false
  | some r => (skipSpace r).isEmpty

/-- Go `checkValid` of `encoding/json`: `data` is one syntactically valid JSON
value. -/
def checkValid (data : GoString) : Bool := scanDocument (fun _ => true) data

/-- Go `json.Unmarshal(data, &js) == nil` for `js` of type
`map[string]interface{}`: the text must be valid JSON, its value must be an
object or `null` (an array, string, number or boolean is an
`UnmarshalTypeError`), and every number in it must convert to `float64`. -/
def unmarshalsToMap (parseFloatOk : GoString → Bool) (data : GoString) : Bool :=
  checkValid data &&
  match skipSpace data with
  | [] => false
  | c :: _ => (c == 123 || c == 110) && scanDocument parseFloatOk data

/-- Go `isJSON` of `core/import.go`. -/
def isJSON (parseFloatOk : GoString → Bool) (s : GoString) : Bool :=
  unmarshalsToMap parseFloatOk s

/-! ## `ImportRequestResponsePairViews` -/

/-- The request header map of the pair under construction after line 176: the
record's own map in memory, or the map made at line 175, to which nothing but
this pair refers. -/
inductive PairHeaders
  | own (a : Nat)
  | fresh (m : MapContent)
  deriving DecidableEq, Repr

/-- The entries of the pair's header map. -/
def PairHeaders.content (h : Heap) : PairHeaders → MapContent
  | .own a => h a
  | .fresh m => m

/-- Lines 174–176: `if len(pair.Request.Headers) == 0` a new map is made. -/
def ownOrFresh (h : Heap) (headers : MapRef) : PairHeaders :=
  if (Heap.read h headers).len = 0 then .fresh []
  else
    match headers with
    | some a => .own a
    | none => .fresh []

/-- The assignment `pair.Request.Headers[k] = v` of lines 181 and 184: a write
to memory when the map is the record's own. -/
def PairHeaders.assign (h : Heap) (k : GoString) (v : List GoString) :
    PairHeaders → Heap × PairHeaders
  | .own a => (Heap.write h a (assocSet k v (h a)), .own a)
  | .fresh m => (h, .fresh (assocSet k v m))

/-- Lines 172–186 for a recording record, in the memory `h`: the memory
afterwards, and the pair as `Encode` and `SaveRequestResponsePair` then read
it. -/
def preparePair {W : Type} (c : Collaborators W) (h : Heap)
    (pairView : RequestResponsePairView) : Heap × RequestResponsePair :=
  let pair := NewRequestResponsePairFromRequestResponsePairView c pairView
  let headers := ownOrFresh h pair.Request.Headers
  let written : Heap × PairHeaders :=
    if !(GoMap.present (some (headers.content h)) (gs "Content-Type")) then
      if isJSON c.parseFloatOk pair.Request.Body then
        headers.assign h (gs "Content-Type") [gs "application/json"]
      else
        let ct := c.detectContentType pair.Request.Body
        headers.assign h (gs "Content-Type") [ct]
    else (h, headers)
  (written.1,
    { Response := pair.Response.read written.1
      Request :=
        { Path := pair.Request.Path
          Method := pair.Request.Method
          Destination := pair.Request.Destination
          Scheme := pair.Request.Scheme
          Query := pair.Request.Query
          Body := pair.Request.Body
          Headers := some (written.2.content written.1) } })

/-- The template branch's test
`pairView.Request.RequestType != nil && *pairView.Request.RequestType == "template"`. -/
def isTemplate (pairView : RequestResponsePairView) : Bool :=
  match pairView.Request.RequestType with
  | none => false
  | some t => t == gs "template"

/-- The `RequestTemplateResponsePair` built in the template branch (lines
149–164); its header map is the map of the record itself. -/
def templatePairOf {W : Type} (c : Collaborators W) (pairView : RequestResponsePairView) :
    RequestTemplateResponsePair :=
  let responseDetails := responseDetailsOf c pairView.Response
  let requestTemplate : RequestTemplate :=
    { Path := pairView.Request.Path
      Method := pairView.Request.Method
      Destination := pairView.Request.Destination
      Scheme := pairView.Request.Scheme
      Query := pairView.Request.Query
      Body := pairView.Request.Body
      Headers := pairView.Request.Headers }
  { RequestTemplate := requestTemplate, Response := responseDetails }

/-- The hook event of lines 196–200. -/
def entryOf {W : Type} (c : Collaborators W) (w : W) (pairBytes : GoString) : Entry :=
  { ActionType := c.actionTypeRequestCaptured
    Message := gs "imported"
    Time := c.now w
    Data := pairBytes }

/-- One iteration of the loop over `pairViews` (lines 146–223). -/
def importOne {W : Type} (c : Collaborators W) (st : ImportLoop W)
    (pairView : RequestResponsePairView) : ImportLoop W :=
  if isTemplate pairView then
    let requestTemplateResponsePair := templatePairOf c pairView
    { st with
      hf := { st.hf with TemplateStore := st.hf.TemplateStore ++ [requestTemplateResponsePair] }
      success := st.success + 1 }
  else
    let prepared := preparePair c st.hf.maps pairView
    let pair := prepared.2
    match c.encode pair with
    | .error err =>
      { st with
        hf := { st.hf with
          maps := prepared.1
          log := st.hf.log ++ [LogEvent.encodeFailed err] }
        failed := st.failed + 1 }
    | .ok pairBytes =>
      let en := entryOf c st.hf.world pairBytes
      let hookLog : List LogEvent :=
        match c.fireResult st.hf.world en with
        | some err => [LogEvent.hookFailed err en.Message c.actionTypeRequestCaptured]
        | none => []
      let afterFire := c.fireEffect st.hf.world en
      let saved := c.save afterFire pair
      let saveLog : List LogEvent :=
        match saved.2 with
        | some err => [LogEvent.saveFailed err]
        | none => []
      let hf : Hoverfly W :=
        { st.hf with
          maps := prepared.1
          world := saved.1
          hookCalls := st.hf.hookCalls ++ [en]
          saveCalls := st.hf.saveCalls ++ [pair]
          log := st.hf.log ++ hookLog ++ saveLog }
      match saved.2 with
      | none => { st with hf := hf, success := st.success + 1 }
      | some _ => { st with hf := hf, failed := st.failed + 1 }

/-- The state of the loop after all of `pairViews`, from `success = failed = 0`. -/
def importLoop {W : Type} (c : Collaborators W) (hf : Hoverfly W)
    (pairViews : List RequestResponsePairView) : ImportLoop W :=
  pairViews.foldl (importOne c) { hf := hf, success := 0, failed := 0 }

/-- Go `(hf *Hoverfly) ImportRequestResponsePairViews`: the instance afterwards
and the returned error (`none` is nil). -/
def ImportRequestResponsePairViews {W : Type} (c : Collaborators W) (hf : Hoverfly W)
    (pairViews : List RequestResponsePairView) : Hoverfly W × Option GoString :=
  if pairViews.length > 0 then
    let st := importLoop c hf pairViews
    ({ st.hf with
       log := st.hf.log ++ [LogEvent.imported pairViews.length st.success st.failed] },
     none)
  else
    (hf, some (gs "Bad request. Nothing to import!"))

/-! ## Vocabulary of the statements -/

/-- The pair handed to `SaveRequestResponsePair` for a record whose turn starts
in the memory `h`, if any: none for a template record and none when `Encode`
fails. -/
def savedPairOf {W : Type} (c : Collaborators W) (h : Heap)
    (pairView : RequestResponsePairView) : Option RequestResponsePair :=
  if isTemplate pairView then none
  else
    match c.encode (preparePair c h pairView).2 with
    | .ok _ => some (preparePair c h pairView).2
    | .error _ => none

/-- The bytes carried by the hook event fired for a record whose turn starts in
the memory `h`, if any: none for a template record and none when `Encode`
fails. -/
def hookDataOf {W : Type} (c : Collaborators W) (h : Heap)
    (pairView : RequestResponsePairView) : Option GoString :=
  if isTemplate pairView then none
  else
    match c.encode (preparePair c h pairView).2 with
    | .ok pairBytes => some pairBytes
    | .error _ => none

/-- A record fails, in the state `hf` in which its iteration starts: it is a
recording record whose `Encode` fails or whose `SaveRequestResponsePair` fails. -/
def recordFails {W : Type} (c : Collaborators W) (hf : Hoverfly W)
    (pairView : RequestResponsePairView) : Bool :=
  !isTemplate pairView &&
    match c.encode (preparePair c hf.maps pairView).2 with
    | .error _ => true
    | .ok pairBytes =>
      (c.save (c.fireEffect hf.world (entryOf c hf.world pairBytes))
        (preparePair c hf.maps pairView).2).2.isSome

/-- The number of failing records of a batch imported into `hf`. -/
def failures {W : Type} (c : Collaborators W) (hf : Hoverfly W) :
    List RequestResponsePairView → Nat
  | [] => 0
  | v :: vs =>
    (if recordFails c hf v then 1 else 0) +
      failures c (importOne c { hf := hf, success := 0, failed := 0 } v).hf vs

/-- The address to which the turn of a record writes an inferred
"Content-Type": the record's own header map, when the record is a recording
whose map is not nil, not empty and without that key. -/
def inferenceTarget (h : Heap) (pairView : RequestResponsePairView) : Option Nat :=
  if isTemplate pairView then none
  else
    match pairView.Request.Headers with
    | none => none
    | some a =>
      if h a = [] ∨ (h a).any (fun e => e.1 == gs "Content-Type") = true then none
      else some a

/-- The memory after the turn of a record: the inferred "Content-Type" is added
at the end of the record's own map when there is an `inferenceTarget`, and
nothing else changes. Neither `Encode` nor the store nor the hooks have a say. -/
def mapsAfter (parseFloatOk : GoString → Bool) (detectContentType : GoString → GoString)
    (h : Heap) (pairView : RequestResponsePairView) : Heap :=
  match inferenceTarget h pairView with
  | none => h
  | some a =>
    Heap.write h a (h a ++
      [(gs "Content-Type",
        [if isJSON parseFloatOk (PointerToString pairView.Request.Body) then
            gs "application/json"
          else detectContentType (PointerToString pairView.Request.Body)])])

/-- The entries of the request header map of the pair built for a recording
record whose turn starts in the memory `h`: the record's own entries, with the
inferred "Content-Type" at the end when they have none; that entry alone when
the record's map is nil or empty. -/
def headersAsSaved (parseFloatOk : GoString → Bool) (detectContentType : GoString → GoString)
    (h : Heap) (pairView : RequestResponsePairView) : MapContent :=
  let ct :=
    if isJSON parseFloatOk (PointerToString pairView.Request.Body) then gs "application/json"
    else detectContentType (PointerToString pairView.Request.Body)
  match pairView.Request.Headers with
  | none => [(gs "Content-Type", [ct])]
  | some a =>
    if h a = [] then [(gs "Content-Type", [ct])]
    else if (h a).any (fun e => e.1 == gs "Content-Type") = true then h a
    else h a ++ [(gs "Content-Type", [ct])]

/-- The pair built for a recording record whose turn starts in the memory `h`,
as `Encode` and `SaveRequestResponsePair` read it: the request fields of the
record (the empty string for a nil pointer), the header entries
`headersAsSaved`, and the converted response with its header map as it reads
after the turn. -/
def pairAsSaved {W : Type} (c : Collaborators W) (h : Heap)
    (pairView : RequestResponsePairView) : RequestResponsePair :=
  { Response :=
      (responseDetailsOf c pairView.Response).read
        (mapsAfter c.parseFloatOk c.detectContentType h pairView)
    Request :=
      { Path := PointerToString pairView.Request.Path
        Method := PointerToString pairView.Request.Method
        Destination := PointerToString pairView.Request.Destination
        Scheme := PointerToString pairView.Request.Scheme
        Query := PointerToString pairView.Request.Query
        Body := PointerToString pairView.Request.Body
        Headers := some (headersAsSaved c.parseFloatOk c.detectContentType h pairView) } }

/-- Every record of a batch with the memory in which its turn starts. -/
def turns (parseFloatOk : GoString → Bool) (detectContentType : GoString → GoString) :
    Heap → List RequestResponsePairView → List (Heap × RequestResponsePairView)
  | _, [] => []
  | h, v :: vs =>
    (h, v) :: turns parseFloatOk detectContentType
      (mapsAfter parseFloatOk detectContentType h v) vs

/-- The loop state with the logger output forgotten. -/
def eraseLog {W : Type} (st : ImportLoop W) : ImportLoop W :=
  { st with hf := { st.hf with log := [] } }

/-- The same collaborators with another `Hooks.Fire` result. -/
def Collaborators.withFireResult {W : Type} (c : Collaborators W)
    (r : W → Entry → Option GoString) : Collaborators W :=
  { c with fireResult := r }

/-- What a run leaves behind, the logger output apart. -/
structure Outcome (W : Type) where
  returned : Option GoString
  TemplateStore : List RequestTemplateResponsePair
  maps : Heap
  world : W
  saveCalls : List RequestResponsePair
  hookCalls : List Entry
  success : Nat
  failed : Nat
  summary : Option LogEvent

/-- The outcome of `ImportRequestResponsePairViews`; the counters are those of
the loop and `summary` is the last line logged. -/
def outcomeOf {W : Type} (c : Collaborators W) (hf : Hoverfly W)
    (pairViews : List RequestResponsePairView) : Outcome W :=
  let r := ImportRequestResponsePairViews c hf pairViews
  { returned := r.2
    TemplateStore := r.1.TemplateStore
    maps := r.1.maps
    world := r.1.world
    saveCalls := r.1.saveCalls
    hookCalls := r.1.hookCalls
    success := (importLoop c hf pairViews).success
    failed := (importLoop c hf pairViews).failed
    summary := r.1.log.getLast? }

/-! ## A concrete setting for evaluation -/

/-- The closing rules of `http.DetectContentType`: a body whose first 512 bytes
hold no binary data byte is `text/plain; charset=utf-8`, any other body is
`application/octet-stream`. The signature rules before them (HTML, XML, PDF,
images, audio, video, fonts, archives) are left out; they match none of the
bodies evaluated below. -/
def sniffText (data : GoString) : GoString :=
  if (data.take 512).any (fun b =>
      decide (b.val ≤ 0x08) || b == 0x0B || (decide (0x0E ≤ b.val) && decide (b.val ≤ 0x1A)) ||
        (decide (0x1C ≤ b.val) && decide (b.val ≤ 0x1F))) then
    gs "application/octet-stream"
  else gs "text/plain; charset=utf-8"

/-- Sample collaborators over a world that counts the calls made to it:
`Encode` fails on the method `UNENCODABLE`, the store refuses the path
`/refused`, hooks succeed unless the event carries no data. -/
def sampleCollaborators : Collaborators Nat where
  onDecodeError := fun v => { Status := v.Status, Body := [], Headers := v.Headers }
  parseFloatOk := fun _ => true
  detectContentType := sniffText
  encode := fun p =>
    if p.Request.Method == gs "UNENCODABLE" then .error (gs "gob: cannot encode")
    else .ok (p.Request.Method ++ p.Request.Path ++ p.Request.Body)
  actionTypeRequestCaptured := gs "requestCaptured"
  now := fun w => w
  fireEffect := fun w _ => w + 1
  fireResult := fun _ e => if e.Data.isEmpty then some (gs "hook failed") else none
  save := fun w p =>
    if p.Request.Path == gs "/refused" then (w + 1, some (gs "bolt: refused")) else (w + 1, none)

/-- A memory with the map `Accept: */*` at address 1 and empty maps elsewhere. -/
def sampleMaps : Heap :=
  fun a => if a = 1 then [(gs "Accept", [gs "*/*"])] else []

/-- An instance with nothing imported yet, in the memory `sampleMaps`. -/
def emptyHoverfly : Hoverfly Nat :=
  { TemplateStore := [], maps := sampleMaps, world := 0, saveCalls := [], hookCalls := [],
    log := [] }

/-- A record view with the given type, method, path, body and header map. -/
def sampleView (requestType : Option GoString) (method path body : GoString)
    (headers : MapRef) : RequestResponsePairView :=
  { Response := { Status := 200, Body := gs "ok", EncodedBody := false, Headers := none }
    Request :=
      { RequestType := requestType
        Path := some path
        Method := some method
        Destination := some (gs "example.org")
        Scheme := some (gs "http")
        Query := some []
        Body := some body
        Headers := headers } }

/-- A recording record without headers whose body is a JSON object. -/
def objectBodyView : RequestResponsePairView :=
  sampleView (some (gs "recording")) (gs "POST") (gs "/a") (gs "\x7b\"k\": [1, 2]\x7d") none

/-- A recording record with the header map at address 1 which the store refuses. -/
def refusedView : RequestResponsePairView :=
  sampleView none (gs "PUT") (gs "/refused") (gs "[1,2]") (some 1)

/-- A batch with a template, a good recording, a recording with an empty
header map that cannot be encoded and a recording the store refuses. -/
def sampleBatch : List RequestResponsePairView :=
  [ sampleView (some (gs "template")) (gs "GET") (gs "/t") [] none,
    objectBodyView,
    sampleView none (gs "UNENCODABLE") (gs "/b") (gs "plain") (some 0),
    refusedView ]

/-- A recording record without headers whose body is the JSON array `[1,2]`. -/
def arrayBodyView : RequestResponsePairView :=
  sampleView none (gs "POST") (gs "/items") (gs "[1,2]") none

/-- The pair the store refuses in `sampleBatch`, as it is handed over. -/
def refusedPair : RequestResponsePair :=
  (preparePair sampleCollaborators sampleMaps refusedView).2

/-- A template record whose header map is the map at address 1. -/
def sharingTemplate : RequestResponsePairView :=
  sampleView (some (gs "template")) (gs "GET") (gs "/t") [] (some 1)

/-- A recording record with the plain body `hello` and the header map at
address 1, which the store refuses. -/
def sharingRefused : RequestResponsePairView :=
  sampleView none (gs "POST") (gs "/refused") (gs "hello") (some 1)

/-- A recording record with a JSON object body and the header map at address 1. -/
def sharingObject : RequestResponsePairView :=
  sampleView none (gs "POST") (gs "/b") (gs "\x7b\"a\":1\x7d") (some 1)

/-! ## `regexp`: matching by derivatives -/

/-- Go `utf8.DecodeRuneInString`: the first code point of a UTF-8 text and its
width in bytes; a byte that starts no valid encoding stands for U+FFFD and is
one byte wide. -/
def decodeRune (s : GoString) : Nat × Nat :=
  let cont (b : Byte) : Bool := decide (0x80 ≤ b.val) && decide (b.val ≤ 0xBF)
  match s with
  | [] => (0xFFFD, 0)
  | b0 :: r =>
    if b0.val < 0x80 then (b0.val, 1)
    else if 0xC2 ≤ b0.val ∧ b0.val ≤ 0xDF then
      match r with
      | b1 :: _ =>
        if cont b1 then ((b0.val - 0xC0) * 64 + (b1.val - 0x80), 2) else (0xFFFD, 1)
      | [] => (0xFFFD, 1)
    else if 0xE0 ≤ b0.val ∧ b0.val ≤ 0xEF then
      match r with
      | b1 :: b2 :: _ =>
        let lo := if b0.val = 0xE0 then 0xA0 else 0x80
        let hi := if b0.val = 0xED then 0x9F else 0xBF
        if decide (lo ≤ b1.val) && decide (b1.val ≤ hi) && cont b2 then
          ((b0.val - 0xE0) * 4096 + (b1.val - 0x80) * 64 + (b2.val - 0x80), 3)
        else (0xFFFD, 1)
      | _ => (0xFFFD, 1)
    else if 0xF0 ≤ b0.val ∧ b0.val ≤ 0xF4 then
      match r with
      | b1 :: b2 :: b3 :: _ =>
        let lo := if b0.val = 0xF0 then 0x90 else 0x80
        let hi := if b0.val = 0xF4 then 0x8F else 0xBF
        if decide (lo ≤ b1.val) && decide (b1.val ≤ hi) && cont b2 && cont b3 then
          ((b0.val - 0xF0) * 262144 + (b1.val - 0x80) * 4096 + (b2.val - 0x80) * 64 +
            (b3.val - 0x80), 4)
        else (0xFFFD, 1)
      | _ => (0xFFFD, 1)
    else (0xFFFD, 1)

/-- The code points of a text, one `decodeRune` after the other; every step
consumes a byte at least, so `fuel = s.length` reaches the end. -/
def decodeRunesFrom : Nat → GoString → List Nat
  | 0, _ => []
  | fuel + 1, s =>
    if s.isEmpty then []
    else (decodeRune s).1 :: decodeRunesFrom fuel (s.drop (decodeRune s).2)

/-- The code points a Go `range` over the string, or the regexp engine, sees. -/
def decodeRunes (s : GoString) : List Nat := decodeRunesFrom s.length s

/-- Regular expressions over code points. A class is a list of inclusive
ranges, possibly negated. -/
inductive Rx
  | none
  | eps
  | cls (negated : Bool) (ranges : List (Nat × Nat))
  | seq (a b : Rx)
  | alt (a b : Rx)
  | star (a : Rx)
  deriving DecidableEq, Repr

namespace Rx

/-- Whether the class holds the code point. -/
def classHas (negated : Bool) (ranges : List (Nat × Nat)) (c : Nat) : Bool :=
  (ranges.any (fun r => decide (r.1 ≤ c) && decide (c ≤ r.2))) != negated

/-- Whether the expression matches the empty text. -/
def nullable : Rx → Bool
  | none => false
  | eps => true
  | cls _ _ => false
  | seq a b => a.nullable && b.nullable
  | alt a b => a.nullable || b.nullable
  | star _ => true

/-- Sequence, simplified when a side matches nothing or only the empty text. -/
def mkSeq (a b : Rx) : Rx :=
  if a = none ∨ b = none then none
  else if a = eps then b
  else seq a b

/-- Alternation, simplified when a side matches nothing or both are the same. -/
def mkAlt (a b : Rx) : Rx :=
  if a = none then b
  else if b = none then a
  else if a = b then a
  else alt a b

/-- Brzozowski derivative: what must follow the code point `c`. -/
def deriv (c : Nat) : Rx → Rx
  | none => none
  | eps => none
  | cls negated ranges => if classHas negated ranges c then eps else none
  | seq a b =>
    if a.nullable then mkAlt (mkSeq (deriv c a) b) (deriv c b) else mkSeq (deriv c a) b
  | alt a b => mkAlt (deriv c a) (deriv c b)
  | star a => mkSeq (deriv c a) (star a)

/-- Whether the expression matches the whole text. -/
def fullMatch (r : Rx) : List Nat → Bool
  | [] => r.nullable
  | c :: s => fullMatch (r.deriv c) s

/-- One given character. -/
def chr (c : Char) : Rx := cls false [(c.toNat, c.toNat)]

/-- A literal text. -/
def lit (s : String) : Rx := s.toList.foldr (fun c r => seq (chr c) r) eps

/-- Zero or one: `r?`. -/
def opt (r : Rx) : Rx := alt r eps

/-- One or more: `r+`. -/
def plus (r : Rx) : Rx := seq r (star r)

/-- All of the expressions in a row. -/
def cat : List Rx → Rx
  | [] => eps
  | [r] => r
  | r :: rs => seq r (cat rs)

/-- Any of the expressions. -/
def any : List Rx → Rx
  | [] => none
  | [r] => r
  | r :: rs => alt r (any rs)

end Rx

/-! ## The constant `URL` and `isURL` -/

/-- The class `\d`. -/
def rxDigit : Rx := .cls false [(48, 57)]

/-- The classes `\S` and `[^\s]`: anything but tab, line feed, form feed, carriage return, space. -/
def rxNonSpace : Rx := .cls true [(9, 10), (12, 13), (32, 32)]

/-- The class `[a-zA-Z0-9]`. -/
def rxAlnum : Rx := .cls false [(97, 122), (65, 90), (48, 57)]

/-- The class `[a-z\x{00a1}-\x{ffff}0-9]`. -/
def rxLabelChar : Rx := .cls false [(97, 122), (0xa1, 0xffff), (48, 57)]

/-- The class `[a-z\x{00a1}-\x{ffff}]`. -/
def rxTldChar : Rx := .cls false [(97, 122), (0xa1, 0xffff)]

/-- The scheme `((ftp|https?):\/\/)`. -/
def rxScheme : Rx :=
  .seq (.alt (.lit "ftp") (.seq (.lit "http") (.opt (.chr 's')))) (.lit "://")

/-- The user information `(\S+(:\S*)?@)?`. -/
def rxUserInfo : Rx :=
  .opt (.cat [.plus rxNonSpace, .opt (.seq (.chr ':') (.star rxNonSpace)), .chr '@'])

/-- The dotted address `(([1-9]\d?|1\d\d|2[01]\d|22[0-3])(\.(1?\d{1,2}|2[0-4]\d|25[0-5])){2}(?:\.([0-9]\d?|1\d\d|2[0-4]\d|25[0-4]))`. -/
def rxIP : Rx :=
  let first : Rx := .any
    [ .seq (.cls false [(49, 57)]) (.opt rxDigit),
      .cat [.chr '1', rxDigit, rxDigit],
      .cat [.chr '2', .cls false [(48, 49)], rxDigit],
      .cat [.lit "22", .cls false [(48, 51)]] ]
  let middle : Rx := .seq (.chr '.') (.any
    [ .cat [.opt (.chr '1'), rxDigit, .opt rxDigit],
      .cat [.chr '2', .cls false [(48, 52)], rxDigit],
      .cat [.lit "25", .cls false [(48, 53)]] ])
  let last : Rx := .seq (.chr '.') (.any
    [ .seq (.cls false [(48, 57)]) (.opt rxDigit),
      .cat [.chr '1', rxDigit, rxDigit],
      .cat [.chr '2', .cls false [(48, 52)], rxDigit],
      .cat [.lit "25", .cls false [(48, 52)]] ])
  .cat [first, middle, middle, last]

/-- The domain name `(([a-zA-Z0-9]+([-\.][a-zA-Z0-9]+)*)|((www\.)?))?(([a-z\x{00a1}-\x{ffff}0-9]+-?-?)*[a-z\x{00a1}-\x{ffff}0-9]+)(?:\.([a-z\x{00a1}-\x{ffff}]{2,}))?`. -/
def rxDomain : Rx :=
  let subdomain : Rx := .opt (.alt
    (.seq (.plus rxAlnum) (.star (.seq (.cls false [(45, 45), (46, 46)]) (.plus rxAlnum))))
    (.opt (.lit "www.")))
  let label : Rx := .seq
    (.star (.cat [.plus rxLabelChar, .opt (.chr '-'), .opt (.chr '-')]))
    (.plus rxLabelChar)
  let tld : Rx := .opt (.seq (.chr '.') (.cat [rxTldChar, rxTldChar, .star rxTldChar]))
  .cat [subdomain, label, tld]

/-- The port `(:(\d{1,5}))?`. -/
def rxPort : Rx :=
  .opt (.seq (.chr ':')
    (.cat [rxDigit, .opt rxDigit, .opt rxDigit, .opt rxDigit, .opt rxDigit]))

/-- The path, query or fragment `((\/|\?|#)[^\s]*)?`. -/
def rxPathPart : Rx :=
  .opt (.seq (.cls false [(47, 47), (63, 63), (35, 35)]) (.star rxNonSpace))

/-- The constant `URL` (line 53), anchored at both ends by `^` and `$`. -/
def rxURL : Rx :=
  .cat [rxScheme, rxUserInfo, .alt rxIP rxDomain, rxPort, rxPathPart]

/-- Go `rxURL.MatchString`. -/
def rxURLMatchString (str : GoString) : Bool := rxURL.fullMatch (decodeRunes str)

/-- Go `net/url.URL`, the fields `isURL` reads. -/
structure URL where
  Host : GoString
  Path : GoString
  deriving DecidableEq, Repr

/-- Go `isURL` (lines 57–74); `parse` is `url.Parse` (`none` when it returns an
error). -/
def isURL (parse : GoString → Option URL) (str : GoString) : Bool :=
  if str = [] ∨ str.length ≥ 2083 ∨ str.length ≤ 3 ∨ hasPrefix str (gs ".") = true then false
  else
    match parse str with
    | none => false
    | some u =>
      if hasPrefix u.Host (gs ".") then false
      else if u.Host = [] ∧ (u.Path ≠ [] ∧ ¬ containsStr u.Path (gs ".") = true) then false
      else rxURLMatchString str

/-! ## `net/url`: a model of `url.Parse`

`isURL` below the length guards returns false for every text `rxURL` rejects,
whatever `url.Parse` says, so the parser matters on texts of the form
`scheme://…` only. The model follows `Parse`, `parse`, `getscheme`,
`parseAuthority`, `parseHost` and `unescape` of Go 1.6 `net/url/url.go`, and
keeps the two fields `isURL` reads. Bracketed IP literals with a zone are not
modelled. -/

/-- Go `split(s, c, cutc)`: cut `s` at the first `c`. -/
def splitFirst (c : Byte) (cutc : Bool) (s : GoString) : GoString × GoString :=
  match s.dropWhile (fun b => b != c) with
  | [] => (s, [])
  | d :: after => (s.takeWhile (fun b => b != c), if cutc then after else d :: after)

def isLetter (c : Byte) : Bool :=
  (decide (97 ≤ c.val) && decide (c.val ≤ 122)) || (decide (65 ≤ c.val) && decide (c.val ≤ 90))

/-- Go `getscheme`, from position `i` on: the scheme and the rest; `none` is the
error "missing protocol scheme". -/
def getschemeFrom (rawurl : GoString) : Nat → GoString → Option (GoString × GoString)
  | _, [] => some ([], rawurl)
  | i, c :: r =>
    if isLetter c then getschemeFrom rawurl (i + 1) r
    else if isDigit c || c == 43 || c == 45 || c == 46 then
      if i = 0 then some ([], rawurl) else getschemeFrom rawurl (i + 1) r
    else if c == 58 then
      if i = 0 then none else some (rawurl.take i, r)
    else some ([], rawurl)

/-- Go `getscheme`. -/
def getscheme (rawurl : GoString) : Option (GoString × GoString) :=
  getschemeFrom rawurl 0 rawurl

/-- Go `unhex`. -/
def unhex (c : Byte) : Nat :=
  if isDigit c then c.val - 48
  else if 97 ≤ c.val ∧ c.val ≤ 102 then c.val - 97 + 10
  else if 65 ≤ c.val ∧ c.val ≤ 70 then c.val - 65 + 10
  else 0

/-- Go `shouldEscape(c, encodeHost)`. -/
def shouldEscapeHost (c : Byte) : Bool :=
  !(isLetter c || isDigit c ||
    (gs "!$&'()*+,;=:[]<>\"").contains c || (gs "-_.~").contains c)

/-- Go `unescape(s, mode)` for the modes `encodeHost` (`hostMode`) and
`encodePath`, `encodeUserPassword`, `encodeFragment`; `none` is an
`EscapeError` or `InvalidHostError`. -/
def unescape (hostMode : Bool) : GoString → Option GoString
  | [] => some []
  | c :: r =>
    if c == 37 then
      match r with
      | h1 :: h2 :: r2 =>
        if isHex h1 && isHex h2 &&
            !(hostMode && decide (unhex h1 < 8) && !(h1 == 50 && h2 == 53)) then
          match unescape hostMode r2 with
          | some t => some (Fin.ofNat (unhex h1 * 16 + unhex h2) :: t)
          | none => none
        else none
      | _ => none
    else if hostMode && decide (c.val < 128) && shouldEscapeHost c then none
    else
      match unescape hostMode r with
      | some t => some (c :: t)
      | none => none

/-- Whether the text is empty or a colon followed by digits (`validOptionalPort`). -/
def validOptionalPort : GoString → Bool
  | [] => true
  | c :: r => c == 58 && r.all isDigit

/-- Go `parseHost`; `none` is an error. -/
def parseHost (host : GoString) : Option GoString :=
  if hasPrefix host (gs "[") then
    match (host.reverse.dropWhile (fun b => b != 93)) with
    | [] => none
    | _ :: _ =>
      let colonPort := (host.reverse.takeWhile (fun b => b != 93)).reverse
      if validOptionalPort colonPort then unescape true host else none
  else unescape true host

/-- Go `parseAuthority`: the host is what follows the last `@`; the user
information before it must unescape. `none` is an error. -/
def parseAuthority (authority : GoString) : Option GoString :=
  match authority.reverse.dropWhile (fun b => b != 64) with
  | [] => parseHost authority
  | _ :: userinfoRev =>
    match parseHost (authority.reverse.takeWhile (fun b => b != 64)).reverse with
    | none => none
    | some host =>
      let userinfo := userinfoRev.reverse
      let parts := splitFirst 58 true userinfo
      match unescape false parts.1, unescape false parts.2 with
      | some _, some _ => some host
      | _, _ => none

/-- Go `parse(rawurl, false)`. -/
def parseNoFragment (rawurl : GoString) : Option URL :=
  if rawurl = gs "*" then some { Host := [], Path := gs "*" }
  else
    match getscheme rawurl with
    | none => none
    | some (scheme, afterScheme) =>
      let rest := (splitFirst 63 true afterScheme).1
      if !hasPrefix rest (gs "/") && !scheme.isEmpty then
        some { Host := [], Path := [] }
      else if !hasPrefix rest (gs "/") &&
          (rest.contains 58 &&
            (!rest.contains 47 ||
              decide ((rest.takeWhile (fun b => b != 58)).length <
                (rest.takeWhile (fun b => b != 47)).length))) then
        none
      else if (!scheme.isEmpty || !hasPrefix rest (gs "///")) && hasPrefix rest (gs "//") then
        let parts := splitFirst 47 false (rest.drop 2)
        match parseAuthority parts.1, unescape false parts.2 with
        | some host, some path => some { Host := host, Path := path }
        | _, _ => none
      else
        match unescape false rest with
        | some path => some { Host := [], Path := path }
        | none => none

/-- Go `url.Parse`; `none` when it returns an error. -/
def urlParse (rawurl : GoString) : Option URL :=
  let parts := splitFirst 35 true rawurl
  match parseNoFragment parts.1 with
  | none => none
  | some u =>
    if parts.2.isEmpty then some u
    else
      match unescape false parts.2 with
      | some _ => some u
      | none => none

/-! ## The loop body -/

section Loop

variable {W : Type}

theorem importOne_of_template (c : Collaborators W) (st : ImportLoop W)
    (v : RequestResponsePairView) (h : isTemplate v = true) :
    importOne c st v =
      { st with
        hf := { st.hf with TemplateStore := st.hf.TemplateStore ++ [templatePairOf c v] }
        success := st.success + 1 } := by
  simp only [importOne, h, if_true]

theorem importOne_of_encode_error (c : Collaborators W) (st : ImportLoop W)
    (v : RequestResponsePairView) (err : GoString) (h : isTemplate v = false)
    (he : c.encode (preparePair c st.hf.maps v).2 = .error err) :
    importOne c st v =
      { st with
        hf := { st.hf with
          maps := (preparePair c st.hf.maps v).1
          log := st.hf.log ++ [LogEvent.encodeFailed err] }
        failed := st.failed + 1 } := by
  simp only [importOne, h, he, Bool.false_eq_true, if_false]

theorem importOne_of_encode_ok (c : Collaborators W) (st : ImportLoop W)
    (v : RequestResponsePairView) (pairBytes : GoString) (h : isTemplate v = false)
    (he : c.encode (preparePair c st.hf.maps v).2 = .ok pairBytes) :
    importOne c st v =
      { hf :=
          { TemplateStore := st.hf.TemplateStore
            maps := (preparePair c st.hf.maps v).1
            world := (c.save (c.fireEffect st.hf.world (entryOf c st.hf.world pairBytes))
              (preparePair c st.hf.maps v).2).1
            hookCalls := st.hf.hookCalls ++ [entryOf c st.hf.world pairBytes]
            saveCalls := st.hf.saveCalls ++ [(preparePair c st.hf.maps v).2]
            log := st.hf.log ++
              (match c.fireResult st.hf.world (entryOf c st.hf.world pairBytes) with
                | some err =>
                  [LogEvent.hookFailed err (entryOf c st.hf.world pairBytes).Message
                    c.actionTypeRequestCaptured]
                | none => []) ++
              (match (c.save (c.fireEffect st.hf.world (entryOf c st.hf.world pairBytes))
                  (preparePair c st.hf.maps v).2).2 with
                | some err => [LogEvent.saveFailed err]
                | none => []) }
        success := st.success +
          (if (c.save (c.fireEffect st.hf.world (entryOf c st.hf.world pairBytes))
            (preparePair c st.hf.maps v).2).2.isSome then 0 else 1)
        failed := st.failed +
          (if (c.save (c.fireEffect st.hf.world (entryOf c st.hf.world pairBytes))
            (preparePair c st.hf.maps v).2).2.isSome then 1 else 0) } := by
  simp only [importOne, h, he, Bool.false_eq_true, if_false]
  cases hs : (c.save (c.fireEffect st.hf.world (entryOf c st.hf.world pairBytes))
      (preparePair c st.hf.maps v).2).2 <;> simp

theorem importOne_hf_counters (c : Collaborators W) (st : ImportLoop W)
    (v : RequestResponsePairView) :
    (importOne c st v).hf = (importOne c { hf := st.hf, success := 0, failed := 0 } v).hf := by
  cases ht : isTemplate v
  · cases he : c.encode (preparePair c st.hf.maps v).2 with
    | error err =>
      rw [importOne_of_encode_error c st v err ht he,
        importOne_of_encode_error c { hf := st.hf, success := 0, failed := 0 } v err ht he]
    | ok b =>
      rw [importOne_of_encode_ok c st v b ht he,
        importOne_of_encode_ok c { hf := st.hf, success := 0, failed := 0 } v b ht he]
  · rw [importOne_of_template c st v ht,
      importOne_of_template c { hf := st.hf, success := 0, failed := 0 } v ht]

theorem importOne_templateStore (c : Collaborators W) (st : ImportLoop W)
    (v : RequestResponsePairView) :
    (importOne c st v).hf.TemplateStore =
      st.hf.TemplateStore ++ (if isTemplate v then [templatePairOf c v] else []) := by
  cases ht : isTemplate v
  · cases he : c.encode (preparePair c st.hf.maps v).2 with
    | error err => rw [importOne_of_encode_error c _ v err ht he]; simp
    | ok b => rw [importOne_of_encode_ok c _ v b ht he]; simp
  · rw [importOne_of_template c _ v ht]; simp

theorem importOne_maps (c : Collaborators W) (st : ImportLoop W)
    (v : RequestResponsePairView) :
    (importOne c st v).hf.maps =
      (if isTemplate v then st.hf.maps else (preparePair c st.hf.maps v).1) := by
  cases ht : isTemplate v
  · cases he : c.encode (preparePair c st.hf.maps v).2 with
    | error err => rw [importOne_of_encode_error c _ v err ht he]; simp
    | ok b => rw [importOne_of_encode_ok c _ v b ht he]; simp
  · rw [importOne_of_template c _ v ht]; simp

theorem importOne_saveCalls (c : Collaborators W) (st : ImportLoop W)
    (v : RequestResponsePairView) :
    (importOne c st v).hf.saveCalls =
      st.hf.saveCalls ++ (savedPairOf c st.hf.maps v).toList := by
  cases ht : isTemplate v
  · cases he : c.encode (preparePair c st.hf.maps v).2 with
    | error err => rw [importOne_of_encode_error c _ v err ht he]; simp [savedPairOf, ht, he]
    | ok b => rw [importOne_of_encode_ok c _ v b ht he]; simp [savedPairOf, ht, he]
  · rw [importOne_of_template c _ v ht]; simp [savedPairOf, ht]

theorem importOne_failed (c : Collaborators W) (st : ImportLoop W)
    (v : RequestResponsePairView) :
    (importOne c st v).failed = st.failed + (if recordFails c st.hf v then 1 else 0) := by
  cases ht : isTemplate v
  · cases he : c.encode (preparePair c st.hf.maps v).2 with
    | error err => rw [importOne_of_encode_error c _ v err ht he]; simp [recordFails, ht, he]
    | ok b => rw [importOne_of_encode_ok c _ v b ht he]; simp [recordFails, ht, he]
  · rw [importOne_of_template c _ v ht]; simp [recordFails, ht]

theorem importOne_total (c : Collaborators W) (st : ImportLoop W)
    (v : RequestResponsePairView) :
    (importOne c st v).success + (importOne c st v).failed = st.success + st.failed + 1 := by
  cases ht : isTemplate v
  · cases he : c.encode (preparePair c st.hf.maps v).2 with
    | error err => rw [importOne_of_encode_error c _ v err ht he]; simp only; omega
    | ok b =>
      rw [importOne_of_encode_ok c _ v b ht he]
      simp only
      split <;> omega
  · rw [importOne_of_template c _ v ht]; simp only; omega

theorem importOne_world_of_template (c : Collaborators W) (st : ImportLoop W)
    (v : RequestResponsePairView) (h : isTemplate v = true) :
    (importOne c st v).hf.world = st.hf.world ∧
      (importOne c st v).hf.hookCalls = st.hf.hookCalls ∧
      (importOne c st v).hf.saveCalls = st.hf.saveCalls ∧
      (importOne c st v).hf.maps = st.hf.maps := by
  rw [importOne_of_template c st v h]
  exact ⟨rfl, rfl, rfl, rfl⟩

/-! ## The whole loop -/

theorem foldl_importOne_hf (c : Collaborators W) (vs : List RequestResponsePairView) :
    ∀ st : ImportLoop W,
      (vs.foldl (importOne c) st).hf =
        (vs.foldl (importOne c) { hf := st.hf, success := 0, failed := 0 }).hf := by
  induction vs with
  | nil => intro st; rfl
  | cons v vs ih =>
    intro st
    simp only [List.foldl_cons]
    rw [ih (importOne c st v), ih (importOne c { hf := st.hf, success := 0, failed := 0 } v),
      importOne_hf_counters c st v]

theorem foldl_importOne_templateStore (c : Collaborators W)
    (vs : List RequestResponsePairView) :
    ∀ st : ImportLoop W,
      (vs.foldl (importOne c) st).hf.TemplateStore =
        st.hf.TemplateStore ++ (vs.filter isTemplate).map (templatePairOf c) := by
  induction vs with
  | nil => intro st; simp
  | cons v vs ih =>
    intro st
    simp only [List.foldl_cons]
    rw [ih, importOne_templateStore]
    cases hv : isTemplate v <;> simp [List.filter_cons, hv]

theorem foldl_importOne_failed (c : Collaborators W) (vs : List RequestResponsePairView) :
    ∀ st : ImportLoop W,
      (vs.foldl (importOne c) st).failed = st.failed + failures c st.hf vs := by
  induction vs with
  | nil => intro st; simp [failures]
  | cons v vs ih =>
    intro st
    simp only [List.foldl_cons, failures]
    rw [ih, importOne_failed, importOne_hf_counters c st v]
    omega

theorem foldl_importOne_total (c : Collaborators W) (vs : List RequestResponsePairView) :
    ∀ st : ImportLoop W,
      (vs.foldl (importOne c) st).success + (vs.foldl (importOne c) st).failed =
        st.success + st.failed + vs.length := by
  induction vs with
  | nil => intro st; simp
  | cons v vs ih =>
    intro st
    simp only [List.foldl_cons, List.length_cons]
    rw [ih, importOne_total]
    omega

theorem importLoop_counters (c : Collaborators W) (hf : Hoverfly W)
    (vs : List RequestResponsePairView) :
    (importLoop c hf vs).failed = failures c hf vs ∧
      (importLoop c hf vs).success = vs.length - failures c hf vs ∧
      failures c hf vs ≤ vs.length := by
  have h1 := foldl_importOne_failed c vs { hf := hf, success := 0, failed := 0 }
  have h2 := foldl_importOne_total c vs { hf := hf, success := 0, failed := 0 }
  simp only [Nat.zero_add] at h1 h2
  unfold importLoop
  omega

end Loop

/-! ## The pair of a recording record and the memory after its turn -/

theorem assocSet_any (k : GoString) (x : List GoString) (l : List (GoString × List GoString)) :
    (assocSet k x l).any (fun e => e.1 == k) = true := by
  induction l with
  | nil => simp [assocSet]
  | cons e l ih =>
    unfold assocSet
    split
    · simp
    · rw [List.any_cons, ih, Bool.or_true]

theorem assocSet_of_absent (k : GoString) (x : List GoString)
    (l : List (GoString × List GoString)) (h : l.any (fun e => e.1 == k) = false) :
    assocSet k x l = l ++ [(k, x)] := by
  induction l with
  | nil => rfl
  | cons e l ih =>
    rw [List.any_cons, Bool.or_eq_false_iff] at h
    unfold assocSet
    rw [if_neg (by simp [h.1]), ih h.2]
    rfl

theorem Heap.write_same (h : Heap) (a : Nat) (m : MapContent) : Heap.write h a m a = m := by
  simp [Heap.write]

theorem Heap.write_other (h : Heap) (a b : Nat) (m : MapContent) (hne : b ≠ a) :
    Heap.write h a m b = h b := by
  simp [Heap.write, hne]

section Prepared

variable {W : Type}

/-- The in-memory conversion of a response agrees with the conversion of the
view a reader finds, whenever that one succeeds. -/
theorem responseDetailsOf_read (c : Collaborators W) (h : Heap) (data : ResponseDetailsViewRef)
    (r : ResponseDetails)
    (hok : NewResponseDetailsFromResponseDetailsView (data.read h) = .ok r) :
    (responseDetailsOf c data).read h = r := by
  cases henc : data.EncodedBody
  · simp only [NewResponseDetailsFromResponseDetailsView, ResponseDetailsViewRef.read, henc,
      Bool.false_eq_true, if_false, Except.ok.injEq] at hok
    simp only [responseDetailsOf, henc, Bool.false_eq_true, if_false, ResponseDetailsRef.read]
    exact hok
  · cases hraw : base64Decode data.Body with
    | none =>
      simp only [NewResponseDetailsFromResponseDetailsView, ResponseDetailsViewRef.read, henc,
        if_true, hraw] at hok
      exact absurd hok (by simp)
    | some raw =>
      simp only [NewResponseDetailsFromResponseDetailsView, ResponseDetailsViewRef.read, henc,
        if_true, hraw, Except.ok.injEq] at hok
      simp only [responseDetailsOf, henc, if_true, hraw, ResponseDetailsRef.read]
      exact hok

/-- Lines 172–186 in closed form: the memory afterwards is `mapsAfter`, the pair
read by `Encode` is `pairAsSaved`. -/
theorem preparePair_eq (c : Collaborators W) (h : Heap) (v : RequestResponsePairView)
    (ht : isTemplate v = false) :
    preparePair c h v =
      (mapsAfter c.parseFloatOk c.detectContentType h v, pairAsSaved c h v) := by
  cases hh : v.Request.Headers with
  | none =>
    simp only [preparePair, NewRequestResponsePairFromRequestResponsePairView,
      NewRequestDetailsFromRequestDetailsView, ownOrFresh, hh, Heap.read, GoMap.len,
      if_true, PairHeaders.content, GoMap.present, List.any_nil, Bool.not_false,
      PairHeaders.assign, assocSet, pairAsSaved, mapsAfter, inferenceTarget, ht,
      Bool.false_eq_true, if_false, headersAsSaved]
    split <;> rfl
  | some a =>
    by_cases hempty : h a = []
    · simp only [preparePair, NewRequestResponsePairFromRequestResponsePairView,
        NewRequestDetailsFromRequestDetailsView, ownOrFresh, hh, Heap.read, GoMap.len, hempty,
        List.length_nil, if_true, PairHeaders.content, GoMap.present, List.any_nil,
        Bool.not_false, PairHeaders.assign, assocSet, pairAsSaved, mapsAfter, inferenceTarget,
        ht, Bool.false_eq_true, if_false, headersAsSaved, true_or]
      split <;> rfl
    · have hlen : ¬ (h a).length = 0 := fun hl => hempty (List.length_eq_zero.mp hl)
      cases hp : (h a).any (fun e => e.1 == gs "Content-Type")
      · simp only [preparePair, NewRequestResponsePairFromRequestResponsePairView,
          NewRequestDetailsFromRequestDetailsView, ownOrFresh, hh, Heap.read, GoMap.len, hlen,
          if_false, PairHeaders.content, GoMap.present, hp, Bool.not_false, if_true,
          PairHeaders.assign, pairAsSaved, mapsAfter, inferenceTarget, ht, Bool.false_eq_true,
          headersAsSaved, hempty, or_self, assocSet_of_absent _ _ _ hp]
        split <;> simp only [Heap.write_same]
      · simp only [preparePair, NewRequestResponsePairFromRequestResponsePairView,
          NewRequestDetailsFromRequestDetailsView, ownOrFresh, hh, Heap.read, GoMap.len, hlen,
          if_false, PairHeaders.content, GoMap.present, hp, Bool.not_true, Bool.false_eq_true,
          pairAsSaved, mapsAfter, inferenceTarget, ht, headersAsSaved, hempty, or_true,
          if_true, false_or]

theorem headersAsSaved_present (parseFloatOk : GoString → Bool)
    (detectContentType : GoString → GoString) (h : Heap) (v : RequestResponsePairView) :
    (headersAsSaved parseFloatOk detectContentType h v).any
      (fun e => e.1 == gs "Content-Type") = true := by
  unfold headersAsSaved
  dsimp only
  split
  · simp
  · split
    · simp
    · split
      · assumption
      · simp

theorem savedPairOf_eq_some (c : Collaborators W) (h : Heap) (v : RequestResponsePairView)
    (p : RequestResponsePair) (hs : savedPairOf c h v = some p) :
    isTemplate v = false ∧ p = pairAsSaved c h v := by
  unfold savedPairOf at hs
  split at hs
  · exact absurd hs (by simp)
  · rename_i ht
    have ht2 : isTemplate v = false := by simpa using ht
    split at hs
    · simp only [Option.some.injEq] at hs
      rw [preparePair_eq c h v ht2] at hs
      exact ⟨ht2, hs.symm⟩
    · exact absurd hs (by simp)

end Prepared

/-! ## Further facts about the loop -/

section LoopFacts

variable {W : Type}

theorem mapsAfter_of_template (parseFloatOk : GoString → Bool)
    (detectContentType : GoString → GoString) (h : Heap) (v : RequestResponsePairView)
    (ht : isTemplate v = true) : mapsAfter parseFloatOk detectContentType h v = h := by
  simp [mapsAfter, inferenceTarget, ht]

theorem importOne_maps_eq (c : Collaborators W) (st : ImportLoop W)
    (v : RequestResponsePairView) :
    (importOne c st v).hf.maps =
      mapsAfter c.parseFloatOk c.detectContentType st.hf.maps v := by
  rw [importOne_maps]
  cases ht : isTemplate v
  · simp only [Bool.false_eq_true, if_false, preparePair_eq c _ v ht]
  · simp only [if_true, mapsAfter_of_template _ _ _ _ ht]

theorem foldl_importOne_maps (c : Collaborators W) (vs : List RequestResponsePairView) :
    ∀ st : ImportLoop W,
      (vs.foldl (importOne c) st).hf.maps =
        vs.foldl (mapsAfter c.parseFloatOk c.detectContentType) st.hf.maps := by
  induction vs with
  | nil => intro st; rfl
  | cons v vs ih =>
    intro st
    simp only [List.foldl_cons]
    rw [ih, importOne_maps_eq]

theorem foldl_importOne_saveCalls (c : Collaborators W) (vs : List RequestResponsePairView) :
    ∀ st : ImportLoop W,
      (vs.foldl (importOne c) st).hf.saveCalls =
        st.hf.saveCalls ++
          (turns c.parseFloatOk c.detectContentType st.hf.maps vs).filterMap
            (fun t => savedPairOf c t.1 t.2) := by
  induction vs with
  | nil => intro st; simp [turns]
  | cons v vs ih =>
    intro st
    simp only [List.foldl_cons, turns]
    rw [ih, importOne_saveCalls, importOne_maps_eq]
    cases hv : savedPairOf c st.hf.maps v <;> simp [List.filterMap_cons, hv]

theorem importOne_hookData (c : Collaborators W) (st : ImportLoop W)
    (v : RequestResponsePairView) :
    (importOne c st v).hf.hookCalls.map Entry.Data =
      st.hf.hookCalls.map Entry.Data ++ (hookDataOf c st.hf.maps v).toList := by
  cases ht : isTemplate v
  · cases he : c.encode (preparePair c st.hf.maps v).2 with
    | error err => rw [importOne_of_encode_error c _ v err ht he]; simp [hookDataOf, ht, he]
    | ok b => rw [importOne_of_encode_ok c _ v b ht he]; simp [hookDataOf, ht, he, entryOf]
  · rw [importOne_of_template c _ v ht]; simp [hookDataOf, ht]

theorem foldl_importOne_hookData (c : Collaborators W) (vs : List RequestResponsePairView) :
    ∀ st : ImportLoop W,
      (vs.foldl (importOne c) st).hf.hookCalls.map Entry.Data =
        st.hf.hookCalls.map Entry.Data ++
          (turns c.parseFloatOk c.detectContentType st.hf.maps vs).filterMap
            (fun t => hookDataOf c t.1 t.2) := by
  induction vs with
  | nil => intro st; simp [turns]
  | cons v vs ih =>
    intro st
    simp only [List.foldl_cons, turns]
    rw [ih, importOne_hookData, importOne_maps_eq]
    cases hv : hookDataOf c st.hf.maps v <;> simp [List.filterMap_cons, hv]

theorem filterMap_recordings {β : Type} (f : Heap × RequestResponsePairView → Option β)
    (hf : ∀ t, isTemplate t.2 = true → f t = none)
    (ts : List (Heap × RequestResponsePairView)) :
    (ts.filter (fun t => !isTemplate t.2)).filterMap f = ts.filterMap f := by
  induction ts with
  | nil => rfl
  | cons t ts ih =>
    cases hv : isTemplate t.2
    · simp [List.filter_cons, hv, List.filterMap_cons, ih]
    · simp [List.filter_cons, hv, List.filterMap_cons, ih, hf t hv]

theorem savedPairOf_template (c : Collaborators W) (h : Heap) (v : RequestResponsePairView)
    (ht : isTemplate v = true) : savedPairOf c h v = none := by
  simp [savedPairOf, ht]

theorem hookDataOf_template (c : Collaborators W) (h : Heap) (v : RequestResponsePairView)
    (ht : isTemplate v = true) : hookDataOf c h v = none := by
  simp [hookDataOf, ht]

/-- The saved pairs, spelled out: the pairs built for the recording records, in
order, those kept whose `Encode` succeeds. -/
theorem filterMap_savedPairOf (c : Collaborators W)
    (ts : List (Heap × RequestResponsePairView)) :
    ts.filterMap (fun t => savedPairOf c t.1 t.2) =
      (((ts.filter (fun t => !isTemplate t.2)).map (fun t => pairAsSaved c t.1 t.2)).filter
        (fun p => match c.encode p with
          | .ok _ => true
          | .error _ => false)) := by
  induction ts with
  | nil => rfl
  | cons t ts ih =>
    rw [List.filterMap_cons, ih]
    cases ht : isTemplate t.2
    · have hp := preparePair_eq c t.1 t.2 ht
      cases he : c.encode (pairAsSaved c t.1 t.2) with
      | error err =>
        have hs : savedPairOf c t.1 t.2 = none := by
          simp only [savedPairOf, ht, hp, he, Bool.false_eq_true, if_false]
        simp only [hs, List.filter_cons, ht, Bool.not_false, if_true, List.map_cons, he,
          Bool.false_eq_true, if_false]
      | ok b =>
        have hs : savedPairOf c t.1 t.2 = some (pairAsSaved c t.1 t.2) := by
          simp only [savedPairOf, ht, hp, he, Bool.false_eq_true, if_false]
        simp only [hs, List.filter_cons, ht, Bool.not_false, if_true, List.map_cons, he]
    · simp only [savedPairOf_template c t.1 t.2 ht, List.filter_cons, ht, Bool.not_true,
        Bool.false_eq_true, if_false]

theorem turns_append (parseFloatOk : GoString → Bool)
    (detectContentType : GoString → GoString) (front rest : List RequestResponsePairView) :
    ∀ h : Heap,
      turns parseFloatOk detectContentType h (front ++ rest) =
        turns parseFloatOk detectContentType h front ++
          turns parseFloatOk detectContentType
            (front.foldl (mapsAfter parseFloatOk detectContentType) h) rest := by
  induction front with
  | nil => intro h; rfl
  | cons v front ih =>
    intro h
    show (h, v) :: turns parseFloatOk detectContentType
        (mapsAfter parseFloatOk detectContentType h v) (front ++ rest) = _
    rw [ih]
    rfl

theorem turns_map_snd (parseFloatOk : GoString → Bool)
    (detectContentType : GoString → GoString) (vs : List RequestResponsePairView) :
    ∀ h : Heap, (turns parseFloatOk detectContentType h vs).map Prod.snd = vs := by
  induction vs with
  | nil => intro h; rfl
  | cons v vs ih => intro h; simp only [turns, List.map_cons, ih]

/-- A map that is the header map of no recording record keeps its entries. -/
theorem mapsAfter_frame (parseFloatOk : GoString → Bool)
    (detectContentType : GoString → GoString) (h : Heap) (v : RequestResponsePairView)
    (a : Nat) (hne : isTemplate v = false → v.Request.Headers ≠ some a) :
    mapsAfter parseFloatOk detectContentType h v a = h a := by
  cases hb : inferenceTarget h v with
  | none => simp only [mapsAfter, hb]
  | some b =>
    have hab : a ≠ b := by
      intro hab
      subst hab
      unfold inferenceTarget at hb
      split at hb
      · exact absurd hb (by simp)
      · rename_i ht
        split at hb
        · exact absurd hb (by simp)
        · rename_i d hd
          split at hb
          · exact absurd hb (by simp)
          · simp only [Option.some.injEq] at hb
            subst hb
            exact hne (by simpa using ht) hd
    simp only [mapsAfter, hb]
    exact Heap.write_other _ _ _ _ hab

theorem foldl_mapsAfter_frame (parseFloatOk : GoString → Bool)
    (detectContentType : GoString → GoString) (vs : List RequestResponsePairView) (a : Nat) :
    ∀ h : Heap, (∀ u ∈ vs, isTemplate u = false → u.Request.Headers ≠ some a) →
      vs.foldl (mapsAfter parseFloatOk detectContentType) h a = h a := by
  induction vs with
  | nil => intro h _; rfl
  | cons v vs ih =>
    intro h hne
    simp only [List.foldl_cons]
    rw [ih _ (fun u hu => hne u (List.mem_cons_of_mem _ hu)),
      mapsAfter_frame _ _ _ _ _ (hne v (List.mem_cons_self _ _))]

theorem getLast_snoc {α : Type} (l : List α) (a : α) : (l ++ [a]).getLast? = some a := by
  induction l with
  | nil => rfl
  | cons b l ih =>
    cases l with
    | nil => rfl
    | cons d l => simp only [List.cons_append, List.getLast?_cons_cons] at ih ⊢; exact ih

theorem import_of_nonempty (c : Collaborators W) (hf : Hoverfly W)
    (vs : List RequestResponsePairView) (h : vs ≠ []) :
    ImportRequestResponsePairViews c hf vs =
      ({ (importLoop c hf vs).hf with
          log := (importLoop c hf vs).hf.log ++
            [LogEvent.imported vs.length (importLoop c hf vs).success
              (importLoop c hf vs).failed] }, none) := by
  have hl : vs.length > 0 := List.length_pos.mpr h
  simp only [ImportRequestResponsePairViews, hl, if_true]

theorem import_of_empty (c : Collaborators W) (hf : Hoverfly W) :
    ImportRequestResponsePairViews c hf [] = (hf, some (gs "Bad request. Nothing to import!")) := by
  rfl

theorem import_templateStore (c : Collaborators W) (hf : Hoverfly W)
    (vs : List RequestResponsePairView) :
    (ImportRequestResponsePairViews c hf vs).1.TemplateStore =
      hf.TemplateStore ++ (vs.filter isTemplate).map (templatePairOf c) := by
  cases vs with
  | nil => simp [import_of_empty]
  | cons v vs =>
    rw [import_of_nonempty c hf (v :: vs) (by simp)]
    exact foldl_importOne_templateStore c (v :: vs) _

theorem import_maps (c : Collaborators W) (hf : Hoverfly W)
    (vs : List RequestResponsePairView) :
    (ImportRequestResponsePairViews c hf vs).1.maps =
      vs.foldl (mapsAfter c.parseFloatOk c.detectContentType) hf.maps := by
  cases vs with
  | nil => simp [import_of_empty]
  | cons v vs =>
    rw [import_of_nonempty c hf (v :: vs) (by simp)]
    exact foldl_importOne_maps c (v :: vs) _

theorem import_saveCalls (c : Collaborators W) (hf : Hoverfly W)
    (vs : List RequestResponsePairView) :
    (ImportRequestResponsePairViews c hf vs).1.saveCalls =
      hf.saveCalls ++
        (turns c.parseFloatOk c.detectContentType hf.maps vs).filterMap
          (fun t => savedPairOf c t.1 t.2) := by
  cases vs with
  | nil => simp [import_of_empty, turns]
  | cons v vs =>
    rw [import_of_nonempty c hf (v :: vs) (by simp)]
    exact foldl_importOne_saveCalls c (v :: vs) _

theorem import_hookData (c : Collaborators W) (hf : Hoverfly W)
    (vs : List RequestResponsePairView) :
    (ImportRequestResponsePairViews c hf vs).1.hookCalls.map Entry.Data =
      hf.hookCalls.map Entry.Data ++
        (turns c.parseFloatOk c.detectContentType hf.maps vs).filterMap
          (fun t => hookDataOf c t.1 t.2) := by
  cases vs with
  | nil => simp [import_of_empty, turns]
  | cons v vs =>
    rw [import_of_nonempty c hf (v :: vs) (by simp)]
    exact foldl_importOne_hookData c (v :: vs) _

/-! ## Hook results do not steer the loop -/

theorem preparePair_congr (c₁ c₂ : Collaborators W)
    (h1 : c₁.onDecodeError = c₂.onDecodeError) (h2 : c₁.parseFloatOk = c₂.parseFloatOk)
    (h3 : c₁.detectContentType = c₂.detectContentType) (h : Heap)
    (v : RequestResponsePairView) : preparePair c₁ h v = preparePair c₂ h v := by
  simp only [preparePair, NewRequestResponsePairFromRequestResponsePairView, responseDetailsOf,
    h1, h2, h3]

/-- Collaborators that agree on all but the result of `Hooks.Fire` take the loop
state to the same state, the logger output apart. -/
theorem eraseLog_importOne (c₁ c₂ : Collaborators W)
    (h1 : c₁.onDecodeError = c₂.onDecodeError) (h2 : c₁.parseFloatOk = c₂.parseFloatOk)
    (h3 : c₁.detectContentType = c₂.detectContentType) (h4 : c₁.encode = c₂.encode)
    (h5 : c₁.actionTypeRequestCaptured = c₂.actionTypeRequestCaptured)
    (h6 : c₁.now = c₂.now) (h7 : c₁.fireEffect = c₂.fireEffect) (h8 : c₁.save = c₂.save)
    (st₁ st₂ : ImportLoop W) (v : RequestResponsePairView) (h : eraseLog st₁ = eraseLog st₂) :
    eraseLog (importOne c₁ st₁ v) = eraseLog (importOne c₂ st₂ v) := by
  have hts : st₁.hf.TemplateStore = st₂.hf.TemplateStore :=
    congrArg (fun s => s.hf.TemplateStore) h
  have hm : st₁.hf.maps = st₂.hf.maps := congrArg (fun s => s.hf.maps) h
  have hw : st₁.hf.world = st₂.hf.world := congrArg (fun s => s.hf.world) h
  have hsc : st₁.hf.saveCalls = st₂.hf.saveCalls := congrArg (fun s => s.hf.saveCalls) h
  have hhc : st₁.hf.hookCalls = st₂.hf.hookCalls := congrArg (fun s => s.hf.hookCalls) h
  have hs : st₁.success = st₂.success := congrArg (fun s => s.success) h
  have hf : st₁.failed = st₂.failed := congrArg (fun s => s.failed) h
  have hpp := preparePair_congr c₁ c₂ h1 h2 h3 st₂.hf.maps v
  cases ht : isTemplate v
  · cases he : c₂.encode (preparePair c₂ st₂.hf.maps v).2 with
    | error err =>
      have he1 : c₁.encode (preparePair c₁ st₁.hf.maps v).2 = .error err := by
        rw [hm, hpp, h4]; exact he
      rw [importOne_of_encode_error c₁ st₁ v err ht he1,
        importOne_of_encode_error c₂ st₂ v err ht he]
      simp only [eraseLog, hts, hm, hw, hsc, hhc, hs, hf, hpp]
    | ok b =>
      have he1 : c₁.encode (preparePair c₁ st₁.hf.maps v).2 = .ok b := by
        rw [hm, hpp, h4]; exact he
      rw [importOne_of_encode_ok c₁ st₁ v b ht he1, importOne_of_encode_ok c₂ st₂ v b ht he]
      simp only [eraseLog, hts, hm, hw, hsc, hhc, hs, hf, hpp, entryOf, h5, h6, h7, h8]
  · rw [importOne_of_template c₁ st₁ v ht, importOne_of_template c₂ st₂ v ht]
    simp only [eraseLog, hts, hm, hw, hsc, hhc, hs, hf, templatePairOf, responseDetailsOf, h1]

theorem eraseLog_foldl (c₁ c₂ : Collaborators W)
    (h1 : c₁.onDecodeError = c₂.onDecodeError) (h2 : c₁.parseFloatOk = c₂.parseFloatOk)
    (h3 : c₁.detectContentType = c₂.detectContentType) (h4 : c₁.encode = c₂.encode)
    (h5 : c₁.actionTypeRequestCaptured = c₂.actionTypeRequestCaptured)
    (h6 : c₁.now = c₂.now) (h7 : c₁.fireEffect = c₂.fireEffect) (h8 : c₁.save = c₂.save)
    (vs : List RequestResponsePairView) :
    ∀ st₁ st₂ : ImportLoop W, eraseLog st₁ = eraseLog st₂ →
      eraseLog (vs.foldl (importOne c₁) st₁) = eraseLog (vs.foldl (importOne c₂) st₂) := by
  induction vs with
  | nil => intro st₁ st₂ h; exact h
  | cons v vs ih =>
    intro st₁ st₂ h
    simp only [List.foldl_cons]
    exact ih _ _ (eraseLog_importOne c₁ c₂ h1 h2 h3 h4 h5 h6 h7 h8 st₁ st₂ v h)

theorem eraseLog_importLoop (c : Collaborators W) (r₁ r₂ : W → Entry → Option GoString)
    (hf : Hoverfly W) (vs : List RequestResponsePairView) :
    eraseLog (importLoop (c.withFireResult r₁) hf vs) =
      eraseLog (importLoop (c.withFireResult r₂) hf vs) :=
  eraseLog_foldl (c.withFireResult r₁) (c.withFireResult r₂) rfl rfl rfl rfl rfl rfl rfl rfl
    vs _ _ rfl

end LoopFacts

/-! ## Base64 decoding undoes encoding -/

theorem b64val_char (n : Nat) (h : n < 64) : b64val (b64char n) = some n := by
  unfold b64val b64char
  simp only [Fin.ofNat]
  split_ifs <;> simp_all <;> omega

theorem b64char_val (n : Nat) :
    (b64char n).val ≠ 61 ∧ (b64char n).val ≠ 10 ∧ (b64char n).val ≠ 13 := by
  unfold b64char
  simp only [Fin.ofNat]
  split_ifs <;> simp <;> omega

theorem b64char_ne_pad (n : Nat) : (b64char n == (61 : Byte)) = false := by
  have h := (b64char_val n).1
  simp only [beq_eq_false_iff_ne, ne_eq]
  intro hc
  exact h (by rw [hc]; rfl)

theorem b64char_keep (n : Nat) :
    (!(b64char n == (10 : Byte) || b64char n == (13 : Byte))) = true := by
  have h := b64char_val n
  have h1 : b64char n ≠ (10 : Byte) := fun hc => h.2.1 (by rw [hc]; rfl)
  have h2 : b64char n ≠ (13 : Byte) := fun hc => h.2.2 (by rw [hc]; rfl)
  simp [h1, h2]

theorem base64Encode_filter (bs : GoString) :
    (base64Encode bs).filter (fun c => !(c == 10 || c == 13)) = base64Encode bs := by
  induction bs using base64Encode.induct with
  | case1 => rfl
  | case2 a => simp only [base64Encode, List.filter_cons, b64char_keep, if_true]; rfl
  | case3 a b => simp only [base64Encode, List.filter_cons, b64char_keep, if_true]; rfl
  | case4 a b c rest ih =>
    simp only [base64Encode, List.filter_cons, b64char_keep, if_true, ih]

theorem byte_ofNat (a : Byte) (n : Nat) (h : n = a.val) : (Fin.ofNat n : Byte) = a := by
  apply Fin.ext
  simp only [Fin.ofNat]
  omega

theorem decodeQuanta_encode (bs : GoString) : decodeQuanta (base64Encode bs) = some bs := by
  induction bs using base64Encode.induct with
  | case1 => rfl
  | case2 a =>
    simp only [base64Encode, decodeQuanta, List.isEmpty_nil, Bool.true_and, beq_self_eq_true, if_true]
    rw [b64val_char _ (by omega), b64val_char _ (by omega)]
    simp only [Option.some.injEq, List.cons.injEq, and_true]
    exact byte_ofNat _ _ (by omega)
  | case3 a b =>
    simp only [base64Encode, decodeQuanta, List.isEmpty_nil, Bool.true_and, beq_self_eq_true, if_true,
      b64char_ne_pad]
    rw [b64val_char _ (by omega), b64val_char _ (by omega), b64val_char _ (by omega)]
    simp only [Bool.false_eq_true, if_false, Option.some.injEq, List.cons.injEq, and_true]
    exact ⟨byte_ofNat _ _ (by omega), byte_ofNat _ _ (by omega)⟩
  | case4 a b c rest ih =>
    simp only [base64Encode, decodeQuanta, b64char_ne_pad, Bool.and_false]
    rw [b64val_char _ (by omega), b64val_char _ (by omega), b64val_char _ (by omega),
      b64val_char _ (by omega), ih]
    simp only [Bool.false_eq_true, if_false, Option.some.injEq, List.cons.injEq, and_true]
    exact ⟨byte_ofNat _ _ (by omega), byte_ofNat _ _ (by omega), byte_ofNat _ _ (by omega)⟩

theorem base64Decode_encode (bs : GoString) : base64Decode (base64Encode bs) = some bs := by
  unfold base64Decode
  rw [base64Encode_filter, decodeQuanta_encode]

/-! ## The JSON scanner never runs short of fuel -/

theorem skipSpace_length (s : GoString) : (skipSpace s).length ≤ s.length := by
  induction s with
  | nil => simp [skipSpace]
  | cons c s ih =>
    unfold skipSpace
    split
    · simp only [List.length_cons]; omega
    · simp

theorem scanString_length : ∀ (n : Nat) (s r : GoString), s.length ≤ n →
    scanString s = some r → r.length < s.length := by
  intro n
  induction n with
  | zero =>
    intro s r hn h
    have : s = [] := List.length_eq_zero.mp (Nat.le_zero.mp hn)
    subst this
    simp [scanString] at h
  | succ n ih =>
    intro s r hn h
    cases s with
    | nil => simp [scanString] at h
    | cons c s =>
      simp only [List.length_cons] at hn ⊢
      unfold scanString at h
      split at h
      · simp only [Option.some.injEq] at h
        subst h
        omega
      · split at h
        · split at h
          · rename_i e r1
            simp only [List.length_cons] at hn ⊢
            split at h
            · have := ih r1 r (by omega) h
              omega
            · split at h
              · split at h
                · rename_i h1 h2 h3 h4 r2
                  simp only [List.length_cons] at hn ⊢
                  split at h
                  · have := ih r2 r (by omega) h
                    omega
                  · exact absurd h (by simp)
                · exact absurd h (by simp)
              · exact absurd h (by simp)
          · exact absurd h (by simp)
        · split at h
          · exact absurd h (by simp)
          · have := ih s r (by omega) h
            omega

theorem spanDigits_length (s : GoString) : (spanDigits s).2.length ≤ s.length := by
  induction s with
  | nil => simp [spanDigits]
  | cons c s ih =>
    unfold spanDigits
    split
    · simp only [List.length_cons]; omega
    · simp

theorem scanInt_length (s i r : GoString) (h : scanInt s = some (i, r)) :
    r.length < s.length := by
  cases s with
  | nil => simp [scanInt] at h
  | cons c s =>
    simp only [scanInt] at h
    have hs := spanDigits_length s
    split at h
    · simp only [Option.some.injEq, Prod.mk.injEq] at h
      obtain ⟨-, rfl⟩ := h
      simp
    · split at h
      · simp only [Option.some.injEq, Prod.mk.injEq] at h
        obtain ⟨-, rfl⟩ := h
        simp only [List.length_cons]; omega
      · exact absurd h (by simp)

theorem scanFrac_length (s f r : GoString) (h : scanFrac s = some (f, r)) :
    r.length ≤ s.length := by
  cases s with
  | nil =>
    simp only [scanFrac, Option.some.injEq, Prod.mk.injEq] at h
    obtain ⟨-, rfl⟩ := h
    simp
  | cons c s =>
    simp only [scanFrac] at h
    split at h
    · split at h
      · rename_i d r1
        have hs := spanDigits_length r1
        split at h
        · simp only [Option.some.injEq, Prod.mk.injEq] at h
          obtain ⟨-, rfl⟩ := h
          simp only [List.length_cons]; omega
        · exact absurd h (by simp)
      · exact absurd h (by simp)
    · simp only [Option.some.injEq, Prod.mk.injEq] at h
      obtain ⟨-, rfl⟩ := h
      simp

theorem scanExp_length (s e r : GoString) (h : scanExp s = some (e, r)) :
    r.length ≤ s.length := by
  cases s with
  | nil =>
    simp only [scanExp, Option.some.injEq, Prod.mk.injEq] at h
    obtain ⟨-, rfl⟩ := h
    simp
  | cons c s =>
    simp only [scanExp] at h
    split at h
    · split at h
      · rename_i d r1
        split at h
        · split at h
          · rename_i x r2
            have hs := spanDigits_length r2
            split at h
            · simp only [Option.some.injEq, Prod.mk.injEq] at h
              obtain ⟨-, rfl⟩ := h
              simp only [List.length_cons]; omega
            · exact absurd h (by simp)
          · exact absurd h (by simp)
        · have hs := spanDigits_length r1
          split at h
          · simp only [Option.some.injEq, Prod.mk.injEq] at h
            obtain ⟨-, rfl⟩ := h
            simp only [List.length_cons]; omega
          · exact absurd h (by simp)
      · exact absurd h (by simp)
    · simp only [Option.some.injEq, Prod.mk.injEq] at h
      obtain ⟨-, rfl⟩ := h
      simp

theorem scanNumber_parts (s lit r : GoString) (h : scanNumber s = some (lit, r)) :
    ∃ (t i f e r1 r2 : GoString), t.length ≤ s.length ∧ scanInt t = some (i, r1) ∧
      scanFrac r1 = some (f, r2) ∧ scanExp r2 = some (e, r) := by
  unfold scanNumber at h
  dsimp only at h
  split at h
  · exact absurd h (by simp)
  · rename_i i r1 hi
    split at h
    · exact absurd h (by simp)
    · rename_i f r2 hf
      split at h
      · exact absurd h (by simp)
      · rename_i e r3 he
        simp only [Option.some.injEq, Prod.mk.injEq] at h
        obtain ⟨-, rfl⟩ := h
        refine ⟨_, i, f, e, r1, r2, ?_, hi, hf, he⟩
        cases s with
        | nil => simp
        | cons c s =>
          dsimp only
          split <;> simp

theorem scanNumber_length (s lit r : GoString) (h : scanNumber s = some (lit, r)) :
    r.length < s.length := by
  obtain ⟨t, i, f, e, r1, r2, ht, hi, hf, he⟩ := scanNumber_parts s lit r h
  have h1 := scanInt_length _ _ _ hi
  have h2 := scanFrac_length _ _ _ hf
  have h3 := scanExp_length _ _ _ he
  omega

theorem scanKey_length (s r : GoString) (h : scanKey s = some r) : r.length < s.length := by
  unfold scanKey at h
  have h0 := skipSpace_length s
  split at h
  · exact absurd h (by simp)
  · rename_i c r0 hs
    rw [hs] at h0
    simp only [List.length_cons] at h0
    split at h
    · split at h
      · exact absurd h (by simp)
      · rename_i r1 h1
        have h2 := scanString_length _ _ _ (Nat.le_refl _) h1
        have h3 := skipSpace_length r1
        split at h
        · exact absurd h (by simp)
        · rename_i d r2 hs2
          rw [hs2] at h3
          simp only [List.length_cons] at h3
          split at h
          · simp only [Option.some.injEq] at h
            subst h
            omega
          · exact absurd h (by simp)
    · exact absurd h (by simp)

theorem scan_length (numOk : GoString → Bool) : ∀ (n : Nat) (st : ScanState) (s r : GoString),
    scan numOk n st s = some r → r.length < s.length := by
  intro n
  induction n with
  | zero => intro st s r h; simp [scan] at h
  | succ n ih =>
    intro st s r h
    have h0 := skipSpace_length s
    cases st with
    | beginValue =>
      simp only [scan] at h
      split at h
      · exact absurd h (by simp)
      · rename_i c r0 hs
        rw [hs] at h0
        simp only [List.length_cons] at h0
        split at h
        · have h1 := skipSpace_length r0
          split at h
          · exact absurd h (by simp)
          · rename_i d r1 hs1
            rw [hs1] at h1
            simp only [List.length_cons] at h1
            split at h
            · simp only [Option.some.injEq] at h
              subst h
              omega
            · split at h
              · exact absurd h (by simp)
              · rename_i r2 hk
                have h2 := scanKey_length _ _ hk
                simp only [List.length_cons] at h2
                split at h
                · exact absurd h (by simp)
                · rename_i r3 hv
                  have h3 := ih _ _ _ hv
                  have h4 := ih _ _ _ h
                  omega
        · split at h
          · have h1 := skipSpace_length r0
            split at h
            · exact absurd h (by simp)
            · rename_i d r1 hs1
              rw [hs1] at h1
              simp only [List.length_cons] at h1
              split at h
              · simp only [Option.some.injEq] at h
                subst h
                omega
              · split at h
                · exact absurd h (by simp)
                · rename_i r2 hv
                  have h3 := ih _ _ _ hv
                  simp only [List.length_cons] at h3
                  have h4 := ih _ _ _ h
                  omega
          · split at h
            · have h1 := scanString_length _ _ _ (Nat.le_refl _) h
              omega
            · split at h
              · split at h
                · exact absurd h (by simp)
                · rename_i lit r1 hn
                  have h1 := scanNumber_length _ _ _ hn
                  simp only [List.length_cons] at h1
                  split at h
                  · simp only [Option.some.injEq] at h
                    subst h
                    omega
                  · exact absurd h (by simp)
              · split at h
                · simp only [Option.some.injEq] at h
                  subst h
                  simp only [List.length_drop]
                  omega
                · split at h
                  · simp only [Option.some.injEq] at h
                    subst h
                    simp only [List.length_drop]
                    omega
                  · split at h
                    · simp only [Option.some.injEq] at h
                      subst h
                      simp only [List.length_drop]
                      omega
                    · exact absurd h (by simp)
    | endArrayValue =>
      simp only [scan] at h
      split at h
      · exact absurd h (by simp)
      · rename_i c r0 hs
        rw [hs] at h0
        simp only [List.length_cons] at h0
        split at h
        · split at h
          · exact absurd h (by simp)
          · rename_i r1 hv
            have h3 := ih _ _ _ hv
            have h4 := ih _ _ _ h
            omega
        · split at h
          · simp only [Option.some.injEq] at h
            subst h
            omega
          · exact absurd h (by simp)
    | endObjectValue =>
      simp only [scan] at h
      split at h
      · exact absurd h (by simp)
      · rename_i c r0 hs
        rw [hs] at h0
        simp only [List.length_cons] at h0
        split at h
        · split at h
          · exact absurd h (by simp)
          · rename_i r1 hk
            have h2 := scanKey_length _ _ hk
            split at h
            · exact absurd h (by simp)
            · rename_i r2 hv
              have h3 := ih _ _ _ hv
              have h4 := ih _ _ _ h
              omega
        · split at h
          · simp only [Option.some.injEq] at h
            subst h
            omega
          · exact absurd h (by simp)

/-- Past `s.length + 1`, more fuel changes nothing. -/
theorem scan_fuel (numOk : GoString → Bool) : ∀ (n : Nat) (st : ScanState) (s : GoString),
    s.length < n → ∀ m : Nat, n ≤ m → scan numOk m st s = scan numOk n st s := by
  intro n
  induction n with
  | zero => intro st s h; omega
  | succ n ih =>
    intro st s hlen m hm
    obtain ⟨j, rfl⟩ : ∃ j, m = j + 1 := ⟨m - 1, by omega⟩
    have hj : n ≤ j := by omega
    have h0 := skipSpace_length s
    -- a value and what follows it, at both amounts of fuel
    have two : ∀ (st1 st2 : ScanState) (t : GoString), t.length < n →
        (match scan numOk j st1 t with
          | none => none
          | some r => scan numOk j st2 r) =
        (match scan numOk n st1 t with
          | none => none
          | some r => scan numOk n st2 r) := by
      intro st1 st2 t ht
      rw [ih st1 t ht j hj]
      cases hv : scan numOk n st1 t with
      | none => rfl
      | some r =>
        have hr := scan_length numOk n st1 t r hv
        exact ih st2 r (by omega) j hj
    cases st with
    | beginValue =>
      simp only [scan]
      split
      · rfl
      · rename_i c r0 hs
        rw [hs] at h0
        simp only [List.length_cons] at h0
        split
        · have h1 := skipSpace_length r0
          split
          · rfl
          · rename_i d r1 hs1
            rw [hs1] at h1
            simp only [List.length_cons] at h1
            split
            · rfl
            · split
              · rfl
              · rename_i r2 hk
                have h2 := scanKey_length _ _ hk
                simp only [List.length_cons] at h2
                exact two _ _ r2 (by omega)
        · split
          · have h1 := skipSpace_length r0
            split
            · rfl
            · rename_i d r1 hs1
              rw [hs1] at h1
              simp only [List.length_cons] at h1
              split
              · rfl
              · exact two _ _ (d :: r1) (by simp only [List.length_cons]; omega)
          · rfl
    | endArrayValue =>
      simp only [scan]
      split
      · rfl
      · rename_i c r0 hs
        rw [hs] at h0
        simp only [List.length_cons] at h0
        split
        · exact two _ _ r0 (by omega)
        · rfl
    | endObjectValue =>
      simp only [scan]
      split
      · rfl
      · rename_i c r0 hs
        rw [hs] at h0
        simp only [List.length_cons] at h0
        split
        · split
          · rfl
          · rename_i r1 hk
            have h2 := scanKey_length _ _ hk
            exact two _ _ r1 (by omega)
        · rfl

/-- The verdict of `scanDocument` is that of `scan` with any larger fuel. -/
theorem scanDocument_fuel (numOk : GoString → Bool) (data : GoString) (m : Nat)
    (hm : data.length + 1 ≤ m) :
    scanDocument numOk data =
      (match scan numOk m .beginValue data with
        | none => false
        | some r => (skipSpace r).isEmpty) := by
  unfold scanDocument
  rw [scan_fuel numOk (data.length + 1) .beginValue data (by omega) m hm]

/-! ## Rune decoding reaches the end of the text -/

theorem decodeRune_width (b : Byte) (s : GoString) : 1 ≤ (decodeRune (b :: s)).2 := by
  unfold decodeRune
  dsimp only
  repeat' split
  all_goals simp

theorem decodeRunesFrom_fuel : ∀ (n : Nat) (s : GoString), s.length ≤ n →
    ∀ m : Nat, n ≤ m → decodeRunesFrom m s = decodeRunesFrom n s := by
  intro n
  induction n with
  | zero =>
    intro s hs m _
    have : s = [] := List.length_eq_zero.mp (Nat.le_zero.mp hs)
    subst this
    cases m <;> simp [decodeRunesFrom]
  | succ n ih =>
    intro s hs m hm
    obtain ⟨j, rfl⟩ : ∃ j, m = j + 1 := ⟨m - 1, by omega⟩
    cases s with
    | nil => simp [decodeRunesFrom]
    | cons b s =>
      have hw := decodeRune_width b s
      simp only [decodeRunesFrom, List.isEmpty_cons, Bool.false_eq_true, if_false]
      rw [ih _ (by simp only [List.length_drop, List.length_cons] at hs ⊢; omega) j (by omega)]

/-! ## The vectors of `payload_test.go` -/

/-- The base64 text expected by
`TestConvertToResponseDetailsView_WithDeflateContentEncodedHeader`. -/
theorem base64Encode_deflate_vector :
    base64Encode (gs "this_should_be_encoded_but_its_not_important") =
      gs "dGhpc19zaG91bGRfYmVfZW5jb2RlZF9idXRfaXRzX25vdF9pbXBvcnRhbnQ=" := by
  decide

/-- The header of a gzip stream and the base64 text expected by
`TestConvertToResponseDetailsView_WithGzipContentEncodedHeader`. -/
theorem base64Encode_gzip_vector :
    base64Encode [0x1f, 0x8b, 0x08, 0x00, 0x00, 0x09, 0x6e, 0x88, 0x00, 0xff] =
      gs "H4sIAAAJbogA/w==" := by
  decide

/-- The body expected by
`TestRequestResponsePairView_ConvertToRequestResponsePairWithEncoding`. -/
theorem base64Decode_encoded_vector :
    NewResponseDetailsFromResponseDetailsView
        { Status := 0, Body := gs "ZW5jb2RlZA==", EncodedBody := true, Headers := none } =
      .ok { Status := 0, Body := gs "encoded", Headers := none } := by
  rfl

/-- The view expected by `TestConvertToResponseDetailsView_WithPlainTextResponseDetails`,
for a detector that takes `hello_world` for text. -/
theorem convert_plain_text_vector :
    ConvertToResponseDetailsView (fun _ => false)
        { Status := 200, Body := gs "hello_world",
          Headers := some [(gs "test_header", [gs "true"])] } =
      { Status := 200, Body := gs "hello_world", EncodedBody := false,
        Headers := some [(gs "test_header", [gs "true"])] } := by
  decide

/-! ## Claims on `ImportRequestResponsePairViews` -/

section ImportClaims

variable {W : Type}

/-- C1: for a non-empty batch of N records the call returns no error, and the
counters logged at the end are total = N, failed = M and success = N - M, where
M counts the recording records whose `Encode` or `SaveRequestResponsePair`
fails; a template record never fails and always adds one to `success`. -/
theorem import_counts (c : Collaborators W) (hf : Hoverfly W)
    (pairViews : List RequestResponsePairView) (h : pairViews ≠ []) :
    (ImportRequestResponsePairViews c hf pairViews).2 = none ∧
    (ImportRequestResponsePairViews c hf pairViews).1.log.getLast? =
      some (LogEvent.imported pairViews.length
        (pairViews.length - failures c hf pairViews) (failures c hf pairViews)) ∧
    (importLoop c hf pairViews).failed = failures c hf pairViews ∧
    (importLoop c hf pairViews).success = pairViews.length - failures c hf pairViews ∧
    failures c hf pairViews ≤ pairViews.length ∧
    (∀ (hf0 : Hoverfly W) (v : RequestResponsePairView), isTemplate v = true →
      recordFails c hf0 v = false) ∧
    (∀ (st : ImportLoop W) (v : RequestResponsePairView), isTemplate v = true →
      (importOne c st v).success = st.success + 1 ∧ (importOne c st v).failed = st.failed) := by
  obtain ⟨hfail, hsucc, hle⟩ := importLoop_counters c hf pairViews
  refine ⟨?_, ?_, hfail, hsucc, hle, ?_, ?_⟩
  · rw [import_of_nonempty c hf pairViews h]
  · rw [import_of_nonempty c hf pairViews h]
    simp only [getLast_snoc, hfail, hsucc]
  · intro hf0 v hv
    simp [recordFails, hv]
  · intro st v hv
    rw [importOne_of_template c st v hv]
    exact ⟨rfl, rfl⟩

/-- C2: on an empty batch the call returns the error
"Bad request. Nothing to import!" and leaves the instance as it was: template
store, header maps, outside world, save calls and hook calls are unchanged. -/
theorem import_empty_batch (c : Collaborators W) (hf : Hoverfly W) :
    (ImportRequestResponsePairViews c hf []).2 = some (gs "Bad request. Nothing to import!") ∧
    (ImportRequestResponsePairViews c hf []).1 = hf ∧
    (ImportRequestResponsePairViews c hf []).1.TemplateStore = hf.TemplateStore ∧
    (ImportRequestResponsePairViews c hf []).1.world = hf.world ∧
    (ImportRequestResponsePairViews c hf []).1.saveCalls = hf.saveCalls ∧
    (ImportRequestResponsePairViews c hf []).1.hookCalls = hf.hookCalls ∧
    (ImportRequestResponsePairViews c hf []).1.maps = hf.maps :=
  ⟨rfl, rfl, rfl, rfl, rfl, rfl, rfl⟩

/-- C3, as stated, fails when a template record shares its header map with a
recording record: the template is stored with the map `Accept: */*` it was
supplied with, and after the import the stored template reads
`Accept: */*, Content-Type: text/plain; charset=utf-8`, the type inferred for
the recording record that follows it. -/
theorem shared_map_changes_stored_template :
    isTemplate sharingTemplate = true ∧
    isTemplate sharingRefused = false ∧
    sharingTemplate.Request.Headers = sharingRefused.Request.Headers ∧
    Heap.read emptyHoverfly.maps sharingTemplate.Request.Headers =
      some [(gs "Accept", [gs "*/*"])] ∧
    (ImportRequestResponsePairViews sampleCollaborators emptyHoverfly
        [sharingTemplate, sharingRefused]).1.TemplateStore.map
      (fun e =>
        Heap.read
          (ImportRequestResponsePairViews sampleCollaborators emptyHoverfly
            [sharingTemplate, sharingRefused]).1.maps
          e.RequestTemplate.Headers) =
      [some [(gs "Accept", [gs "*/*"]),
        (gs "Content-Type", [gs "text/plain; charset=utf-8"])]] := by
  decide

/-- C3 (amended): the template store after the import is the store before it
followed by one entry for each template record of the batch, in input order;
the entry holds the request fields of the record, the record's own header map
(the same map, not a copy) and the converted response. The pairs saved and the
hook events fired come from the non-template records only, and the turn of a
template record touches neither the outside world, nor the save and hook
calls, nor any map. The maps after the import are those before it with the
"Content-Type" inferred for recording records written into their own maps, so
a map that is the header map of no recording record of the batch reads as
supplied. -/
theorem import_templates (c : Collaborators W) (hf : Hoverfly W)
    (pairViews : List RequestResponsePairView) :
    (ImportRequestResponsePairViews c hf pairViews).1.TemplateStore =
      hf.TemplateStore ++ (pairViews.filter isTemplate).map (fun v =>
        { RequestTemplate :=
            { Path := v.Request.Path
              Method := v.Request.Method
              Destination := v.Request.Destination
              Scheme := v.Request.Scheme
              Query := v.Request.Query
              Body := v.Request.Body
              Headers := v.Request.Headers }
          Response := responseDetailsOf c v.Response }) ∧
    (∀ r : ResponseDetailsViewRef, r.EncodedBody = false →
      responseDetailsOf c r = { Status := r.Status, Body := r.Body, Headers := r.Headers }) ∧
    (∀ (r : ResponseDetailsViewRef) (raw : GoString), r.EncodedBody = true →
      base64Decode r.Body = some raw →
      responseDetailsOf c r = { Status := r.Status, Body := raw, Headers := r.Headers }) ∧
    (ImportRequestResponsePairViews c hf pairViews).1.saveCalls =
      hf.saveCalls ++
        ((turns c.parseFloatOk c.detectContentType hf.maps pairViews).filter
          (fun t => !isTemplate t.2)).filterMap (fun t => savedPairOf c t.1 t.2) ∧
    (ImportRequestResponsePairViews c hf pairViews).1.hookCalls.map Entry.Data =
      hf.hookCalls.map Entry.Data ++
        ((turns c.parseFloatOk c.detectContentType hf.maps pairViews).filter
          (fun t => !isTemplate t.2)).filterMap (fun t => hookDataOf c t.1 t.2) ∧
    (∀ (st : ImportLoop W) (v : RequestResponsePairView), isTemplate v = true →
      (importOne c st v).hf.world = st.hf.world ∧
      (importOne c st v).hf.hookCalls = st.hf.hookCalls ∧
      (importOne c st v).hf.saveCalls = st.hf.saveCalls ∧
      (importOne c st v).hf.maps = st.hf.maps) ∧
    (ImportRequestResponsePairViews c hf pairViews).1.maps =
      pairViews.foldl (mapsAfter c.parseFloatOk c.detectContentType) hf.maps ∧
    (∀ a : Nat, (∀ u ∈ pairViews, isTemplate u = false → u.Request.Headers ≠ some a) →
      (ImportRequestResponsePairViews c hf pairViews).1.maps a = hf.maps a) := by
  refine ⟨import_templateStore c hf pairViews, ?_, ?_, ?_, ?_, ?_, import_maps c hf pairViews, ?_⟩
  · intro r hr
    simp only [responseDetailsOf, hr, Bool.false_eq_true, if_false]
  · intro r raw hr hraw
    simp only [responseDetailsOf, hr, hraw, if_true]
  · rw [filterMap_recordings _ (fun t ht => savedPairOf_template c t.1 t.2 ht)]
    exact import_saveCalls c hf pairViews
  · rw [filterMap_recordings _ (fun t ht => hookDataOf_template c t.1 t.2 ht)]
    exact import_hookData c hf pairViews
  · intro st v hv
    exact importOne_world_of_template c st v hv
  · intro a ha
    rw [import_maps]
    exact foldl_mapsAfter_frame _ _ pairViews a hf.maps ha

/-- C4: every pair handed to `SaveRequestResponsePair` by the import has a
non-nil request header map with a "Content-Type" key. -/
theorem saved_pair_has_content_type (c : Collaborators W) (hf : Hoverfly W)
    (pairViews : List RequestResponsePairView) (p : RequestResponsePair)
    (hp : p ∈ (ImportRequestResponsePairViews c hf pairViews).1.saveCalls) :
    p ∈ hf.saveCalls ∨
      (p.Request.Headers ≠ none ∧ p.Request.Headers.present (gs "Content-Type") = true) := by
  rw [import_saveCalls, List.mem_append] at hp
  rcases hp with hp | hp
  · exact Or.inl hp
  · right
    obtain ⟨t, -, ht⟩ := List.mem_filterMap.mp hp
    obtain ⟨-, rfl⟩ := savedPairOf_eq_some c t.1 t.2 p ht
    refine ⟨by simp [pairAsSaved], ?_⟩
    simp only [pairAsSaved, GoMap.present]
    exact headersAsSaved_present _ _ _ _

/-- C6, as stated, fails when records share a header map: a recording record
with the plain body `hello`, which the store refuses, leaves the type inferred
for it in the map `Accept: */*` it shares with the next record; the next
record, whose body is a JSON object, is then saved as
`text/plain; charset=utf-8`, while imported alone it is saved as
`application/json`. -/
theorem failing_record_changes_next_pair :
    recordFails sampleCollaborators emptyHoverfly sharingRefused = true ∧
    sharingRefused.Request.Headers = sharingObject.Request.Headers ∧
    (ImportRequestResponsePairViews sampleCollaborators emptyHoverfly
        [sharingRefused, sharingObject]).1.saveCalls.map
      (fun p => p.Request.Headers.get (gs "Content-Type")) =
      [[gs "text/plain; charset=utf-8"], [gs "text/plain; charset=utf-8"]] ∧
    (ImportRequestResponsePairViews sampleCollaborators emptyHoverfly
        [sharingObject]).1.saveCalls.map
      (fun p => p.Request.Headers.get (gs "Content-Type")) =
      [[gs "application/json"]] := by
  decide

/-- C6 (amended): every record has one turn, in input order, and the pairs
handed to `SaveRequestResponsePair` are the pairs built for the recording
records whose `Encode` succeeds, in input order. The pair of a record holds its
request fields, its converted response and its header entries as they stand at
its turn, with the inferred "Content-Type" added when there is none. The
outcome of the `Encode` or save of a record never affects the others: another
store, other hooks, another clock give the same save calls. A record affects a
later one only through a header map they share, into which the "Content-Type"
inferred for it is written; a map that is the header map of no earlier
recording record still reads as supplied when a record's turn comes. -/
theorem import_saves_in_order (c : Collaborators W) (hf : Hoverfly W)
    (pairViews : List RequestResponsePairView) :
    (ImportRequestResponsePairViews c hf pairViews).1.saveCalls =
      hf.saveCalls ++
        ((((turns c.parseFloatOk c.detectContentType hf.maps pairViews).filter
            (fun t => !isTemplate t.2)).map (fun t =>
          ({ Response :=
              (responseDetailsOf c t.2.Response).read
                (mapsAfter c.parseFloatOk c.detectContentType t.1 t.2)
             Request :=
              { Path := PointerToString t.2.Request.Path
                Method := PointerToString t.2.Request.Method
                Destination := PointerToString t.2.Request.Destination
                Scheme := PointerToString t.2.Request.Scheme
                Query := PointerToString t.2.Request.Query
                Body := PointerToString t.2.Request.Body
                Headers := some
                  (match t.2.Request.Headers with
                    | none =>
                      [(gs "Content-Type",
                        [if isJSON c.parseFloatOk (PointerToString t.2.Request.Body) then
                            gs "application/json"
                          else c.detectContentType (PointerToString t.2.Request.Body)])]
                    | some a =>
                      if t.1 a = [] then
                        [(gs "Content-Type",
                          [if isJSON c.parseFloatOk (PointerToString t.2.Request.Body) then
                              gs "application/json"
                            else c.detectContentType (PointerToString t.2.Request.Body)])]
                      else if (t.1 a).any (fun e => e.1 == gs "Content-Type") = true then
                        t.1 a
                      else
                        t.1 a ++
                          [(gs "Content-Type",
                            [if isJSON c.parseFloatOk (PointerToString t.2.Request.Body) then
                                gs "application/json"
                              else
                                c.detectContentType (PointerToString t.2.Request.Body)])]) } }
            : RequestResponsePair))).filter
          (fun p => match c.encode p with
            | .ok _ => true
            | .error _ => false)) ∧
    (∀ r : ResponseDetailsViewRef, r.EncodedBody = false →
      responseDetailsOf c r = { Status := r.Status, Body := r.Body, Headers := r.Headers }) ∧
    (∀ (r : ResponseDetailsViewRef) (raw : GoString), r.EncodedBody = true →
      base64Decode r.Body = some raw →
      responseDetailsOf c r = { Status := r.Status, Body := raw, Headers := r.Headers }) ∧
    (importLoop c hf pairViews).success + (importLoop c hf pairViews).failed =
      pairViews.length ∧
    (turns c.parseFloatOk c.detectContentType hf.maps pairViews).map Prod.snd = pairViews ∧
    (∀ front rest : List RequestResponsePairView, pairViews = front ++ rest →
      importLoop c hf pairViews = rest.foldl (importOne c) (importLoop c hf front) ∧
      turns c.parseFloatOk c.detectContentType hf.maps pairViews =
        turns c.parseFloatOk c.detectContentType hf.maps front ++
          turns c.parseFloatOk c.detectContentType
            (front.foldl (mapsAfter c.parseFloatOk c.detectContentType) hf.maps) rest) ∧
    (∀ (front : List RequestResponsePairView) (a : Nat),
      (∀ u ∈ front, isTemplate u = false → u.Request.Headers ≠ some a) →
      front.foldl (mapsAfter c.parseFloatOk c.detectContentType) hf.maps a = hf.maps a) ∧
    (∀ (c2 : Collaborators W) (hf2 : Hoverfly W),
      c2.onDecodeError = c.onDecodeError → c2.parseFloatOk = c.parseFloatOk →
      c2.detectContentType = c.detectContentType → c2.encode = c.encode →
      hf2.maps = hf.maps → hf2.saveCalls = hf.saveCalls →
      (ImportRequestResponsePairViews c2 hf2 pairViews).1.saveCalls =
        (ImportRequestResponsePairViews c hf pairViews).1.saveCalls) := by
  have hsaved : ∀ (d : Collaborators W) (g : Hoverfly W),
      (ImportRequestResponsePairViews d g pairViews).1.saveCalls =
        g.saveCalls ++
          ((((turns d.parseFloatOk d.detectContentType g.maps pairViews).filter
            (fun t => !isTemplate t.2)).map (fun t => pairAsSaved d t.1 t.2)).filter
          (fun p => match d.encode p with
            | .ok _ => true
            | .error _ => false)) := by
    intro d g
    rw [import_saveCalls, filterMap_savedPairOf]
  refine ⟨hsaved c hf, ?_, ?_, ?_, turns_map_snd _ _ pairViews hf.maps, ?_, ?_, ?_⟩
  · intro r hr
    simp only [responseDetailsOf, hr, Bool.false_eq_true, if_false]
  · intro r raw hr hraw
    simp only [responseDetailsOf, hr, hraw, if_true]
  · have h := foldl_importOne_total c pairViews { hf := hf, success := 0, failed := 0 }
    simpa [importLoop] using h
  · intro front rest hsplit
    subst hsplit
    exact ⟨by simp only [importLoop, List.foldl_append], turns_append _ _ front rest hf.maps⟩
  · intro front a ha
    exact foldl_mapsAfter_frame _ _ front a hf.maps ha
  · intro c2 hf2 h1 h2 h3 h4 h5 h6
    rw [hsaved c2 hf2, hsaved c hf, h2, h3, h4, h5, h6]
    have hpair : (fun t : Heap × RequestResponsePairView => pairAsSaved c2 t.1 t.2) =
        (fun t => pairAsSaved c t.1 t.2) := by
      funext t
      simp only [pairAsSaved, responseDetailsOf, h1, h2, h3]
    rw [hpair]

/-- C7: two runs on the same batch that differ only in what `Hooks.Fire`
returns have the same returned value, template store, header maps, outside
world, save calls, hook calls, success and failed counters and summary line. -/
theorem import_ignores_hook_results (c : Collaborators W)
    (r₁ r₂ : W → Entry → Option GoString) (hf : Hoverfly W)
    (pairViews : List RequestResponsePairView) :
    outcomeOf (c.withFireResult r₁) hf pairViews =
      outcomeOf (c.withFireResult r₂) hf pairViews := by
  have h := eraseLog_importLoop c r₁ r₂ hf pairViews
  have hs : (importLoop (c.withFireResult r₁) hf pairViews).success =
      (importLoop (c.withFireResult r₂) hf pairViews).success :=
    congrArg (fun s => s.success) h
  have hfl : (importLoop (c.withFireResult r₁) hf pairViews).failed =
      (importLoop (c.withFireResult r₂) hf pairViews).failed :=
    congrArg (fun s => s.failed) h
  cases pairViews with
  | nil => rfl
  | cons v vs =>
    have hts : (importLoop (c.withFireResult r₁) hf (v :: vs)).hf.TemplateStore =
        (importLoop (c.withFireResult r₂) hf (v :: vs)).hf.TemplateStore :=
      congrArg (fun s => s.hf.TemplateStore) h
    have hm : (importLoop (c.withFireResult r₁) hf (v :: vs)).hf.maps =
        (importLoop (c.withFireResult r₂) hf (v :: vs)).hf.maps :=
      congrArg (fun s => s.hf.maps) h
    have hw : (importLoop (c.withFireResult r₁) hf (v :: vs)).hf.world =
        (importLoop (c.withFireResult r₂) hf (v :: vs)).hf.world :=
      congrArg (fun s => s.hf.world) h
    have hsc : (importLoop (c.withFireResult r₁) hf (v :: vs)).hf.saveCalls =
        (importLoop (c.withFireResult r₂) hf (v :: vs)).hf.saveCalls :=
      congrArg (fun s => s.hf.saveCalls) h
    have hhc : (importLoop (c.withFireResult r₁) hf (v :: vs)).hf.hookCalls =
        (importLoop (c.withFireResult r₂) hf (v :: vs)).hf.hookCalls :=
      congrArg (fun s => s.hf.hookCalls) h
    simp only [outcomeOf, import_of_nonempty _ hf (v :: vs) (List.cons_ne_nil v vs),
      getLast_snoc, hs, hfl, hts, hm, hw, hsc, hhc]

end ImportClaims

/-! ## Claims on the response conversions -/

/-- C9: converting a `ResponseDetails` to its view and back yields it again,
whatever the binary detector answers: status and headers are the same and the
body holds the original bytes, whether the view carried them as text or as
base64. -/
theorem response_view_round_trip (isBinary : GoString → Bool) (r : ResponseDetails) :
    NewResponseDetailsFromResponseDetailsView (ConvertToResponseDetailsView isBinary r) =
      .ok r := by
  obtain ⟨b, hb⟩ : ∃ b : Bool, ConvertToResponseDetailsView isBinary r =
      { Status := r.Status, Body := if b then base64Encode r.Body else r.Body,
        Headers := r.Headers, EncodedBody := b } := ⟨_, rfl⟩
  rw [hb]
  cases b
  · rfl
  · simp only [NewResponseDetailsFromResponseDetailsView, if_true, base64Decode_encode]

/-- C10: `ConvertToResponseDetailsView` copies status and headers; the view is
flagged `EncodedBody` exactly when some "Content-Encoding" value is "gzip" or
"deflate" or the body is detected as binary, and then its body is the standard
base64 of the original body; otherwise the body is copied verbatim. -/
theorem response_view_encoding (isBinary : GoString → Bool) (r : ResponseDetails) :
    (ConvertToResponseDetailsView isBinary r).Status = r.Status ∧
    (ConvertToResponseDetailsView isBinary r).Headers = r.Headers ∧
    ((ConvertToResponseDetailsView isBinary r).EncodedBody = true ↔
      ((∃ v ∈ r.Headers.get (gs "Content-Encoding"), v = gs "gzip" ∨ v = gs "deflate") ∨
        isBinary r.Body = true)) ∧
    ((ConvertToResponseDetailsView isBinary r).EncodedBody = true →
      (ConvertToResponseDetailsView isBinary r).Body = base64Encode r.Body) ∧
    ((ConvertToResponseDetailsView isBinary r).EncodedBody = false →
      (ConvertToResponseDetailsView isBinary r).Body = r.Body) := by
  refine ⟨rfl, rfl, ?_, ?_, ?_⟩
  · simp only [ConvertToResponseDetailsView]
    constructor
    · intro h
      split at h
      · rename_i hany
        left
        obtain ⟨v, hv, hv2⟩ := List.any_eq_true.mp hany
        refine ⟨v, hv, ?_⟩
        simpa using hv2
      · split at h
        · right; assumption
        · exact absurd h (by simp)
    · intro h
      rcases h with ⟨v, hv, hv2⟩ | h
      · have hany : (r.Headers.get (gs "Content-Encoding")).any
            (fun v => v == gs "gzip" || v == gs "deflate") = true :=
          List.any_eq_true.mpr ⟨v, hv, by simpa using hv2⟩
        simp only [hany, if_true]
      · split
        · rfl
        · simp only [h, if_true]
  · intro h
    simp only [ConvertToResponseDetailsView] at h ⊢
    simp only [h, if_true]
  · intro h
    simp only [ConvertToResponseDetailsView] at h ⊢
    simp only [h, Bool.false_eq_true, if_false]

/-! ## Claims on content-type inference -/

/-- What `isJSON` accepts is valid JSON whose value is an object or `null`. -/
theorem isJSON_shape (parseFloatOk : GoString → Bool) (s : GoString)
    (h : isJSON parseFloatOk s = true) :
    checkValid s = true ∧
      ∃ (b : Byte) (rest : GoString), skipSpace s = b :: rest ∧ (b = 123 ∨ b = 110) := by
  simp only [isJSON, unmarshalsToMap, Bool.and_eq_true] at h
  obtain ⟨hv, hk⟩ := h
  refine ⟨hv, ?_⟩
  cases hs : skipSpace s with
  | nil => rw [hs] at hk; exact absurd hk (by simp)
  | cons b rest =>
    rw [hs] at hk
    simp only [Bool.and_eq_true, Bool.or_eq_true, beq_iff_eq] at hk
    exact ⟨b, rest, rfl, hk.1⟩

/-- C5: the code at the failing input. The body `[1,2]` is valid JSON and the
record is a recording without a "Content-Type" header, yet `isJSON` rejects the
body (an array does not unmarshal into a `map[string]interface{}`) and the pair
is saved with the sniffed type `text/plain; charset=utf-8`, not with
"application/json". -/
theorem json_array_not_application_json :
    checkValid (gs "[1,2]") = true ∧
    isTemplate arrayBodyView = false ∧
    arrayBodyView.Request.Headers = none ∧
    arrayBodyView.Request.Body = some (gs "[1,2]") ∧
    isJSON sampleCollaborators.parseFloatOk (gs "[1,2]") = false ∧
    ((ImportRequestResponsePairViews sampleCollaborators emptyHoverfly [arrayBodyView]).1.saveCalls.map
      (fun p => p.Request.Headers.get (gs "Content-Type"))) =
      [[gs "text/plain; charset=utf-8"]] ∧
    gs "text/plain; charset=utf-8" ≠ gs "application/json" := by
  decide

/-! ## Claims on `isURL` -/

/-- C8, as stated, fails. `http:///x@abc` has 13 bytes, matches `rxURL` (the
user information is `/x`), does not start with a dot and has an empty host,
which does not start with a dot; `url.Parse` reads the path `/x@abc`, which has
no dot, and `isURL` answers false. `http://a/%zz` matches `rxURL` as well, but
`url.Parse` rejects its escape and `isURL` answers false. -/
theorem isURL_rejects_hostless_match :
    isURL urlParse (gs "http:///x@abc") = false ∧
    3 < (gs "http:///x@abc").length ∧
    (gs "http:///x@abc").length < 2083 ∧
    rxURLMatchString (gs "http:///x@abc") = true ∧
    hasPrefix (gs "http:///x@abc") (gs ".") = false ∧
    urlParse (gs "http:///x@abc") = some { Host := [], Path := gs "/x@abc" } ∧
    hasPrefix ([] : GoString) (gs ".") = false ∧
    isURL urlParse (gs "http://a/%zz") = false ∧
    3 < (gs "http://a/%zz").length ∧
    (gs "http://a/%zz").length < 2083 ∧
    rxURLMatchString (gs "http://a/%zz") = true ∧
    hasPrefix (gs "http://a/%zz") (gs ".") = false ∧
    urlParse (gs "http://a/%zz") = none := by
  decide

/-- C8 (amended): `isURL` holds exactly when the length is above 3 and below
2083, the text matches `rxURL`, it does not start with a dot, `url.Parse`
accepts it, its host does not start with a dot and, when the host is empty, its
path is empty or contains a dot. This holds for whatever `url.Parse` is. -/
theorem isURL_iff (parse : GoString → Option URL) (str : GoString) :
    isURL parse str = true ↔
      (3 < str.length ∧ str.length < 2083 ∧ rxURLMatchString str = true ∧
        hasPrefix str (gs ".") = false ∧
        ∃ u : URL, parse str = some u ∧ hasPrefix u.Host (gs ".") = false ∧
          (u.Host = [] → u.Path = [] ∨ containsStr u.Path (gs ".") = true)) := by
  unfold isURL
  constructor
  · intro h
    split at h
    · exact absurd h (by simp)
    · rename_i hguard
      simp only [not_or, ge_iff_le, not_le] at hguard
      obtain ⟨-, hlt, hgt, hdot⟩ := hguard
      split at h
      · exact absurd h (by simp)
      · rename_i u hu
        split at h
        · exact absurd h (by simp)
        · rename_i hhost
          split at h
          · exact absurd h (by simp)
          · rename_i hpath
            refine ⟨hgt, hlt, h, by simpa using hdot, u, hu, by simpa using hhost, ?_⟩
            intro hempty
            by_cases hp : u.Path = []
            · exact Or.inl hp
            · right
              by_contra hc
              exact hpath ⟨hempty, hp, hc⟩
  · rintro ⟨hgt, hlt, hrx, hdot, u, hu, hhost, hpath⟩
    have hne : str ≠ [] := by
      intro he
      rw [he] at hgt
      simp at hgt
    have hguard : ¬ (str = [] ∨ str.length ≥ 2083 ∨ str.length ≤ 3 ∨
        hasPrefix str (gs ".") = true) := by
      simp only [not_or, ge_iff_le, not_le]
      exact ⟨hne, hlt, hgt, by simp [hdot]⟩
    rw [if_neg hguard]
    simp only [hu]
    rw [if_neg (by simp [hhost])]
    have hp : ¬ (u.Host = [] ∧ (u.Path ≠ [] ∧ ¬ containsStr u.Path (gs ".") = true)) := by
      rintro ⟨h1, h2, h3⟩
      rcases hpath h1 with h4 | h4
      · exact h2 h4
      · exact h3 h4
    rw [if_neg hp]
    exact hrx

/-! ## The theorems at a sample batch -/

/-- The counters of the sample batch: four records, two of them failing. -/
theorem import_counts_witness :
    sampleBatch ≠ [] ∧
    failures sampleCollaborators emptyHoverfly sampleBatch = 2 ∧
    (ImportRequestResponsePairViews sampleCollaborators emptyHoverfly sampleBatch).1.log.getLast? =
      some (LogEvent.imported sampleBatch.length
        (sampleBatch.length - failures sampleCollaborators emptyHoverfly sampleBatch)
        (failures sampleCollaborators emptyHoverfly sampleBatch)) :=
  ⟨by decide, by decide,
    (import_counts sampleCollaborators emptyHoverfly sampleBatch (by decide)).2.1⟩

/-- The pair the sample store refuses was handed over with a "Content-Type" entry. -/
theorem saved_pair_has_content_type_witness :
    refusedPair ∈
      (ImportRequestResponsePairViews sampleCollaborators emptyHoverfly sampleBatch).1.saveCalls ∧
    (refusedPair ∈ emptyHoverfly.saveCalls ∨
      (refusedPair.Request.Headers ≠ none ∧
        refusedPair.Request.Headers.present (gs "Content-Type") = true)) :=
  ⟨by decide,
    saved_pair_has_content_type sampleCollaborators emptyHoverfly sampleBatch refusedPair
      (by decide)⟩

end HoverflyCore
